import Mathlib

/-!
Verification of the k8s-pods-ingress reconciliation engine.

This file gives a shallow embedding, in Lean 4, of the core routing logic of
the repository: the route extractor (`GetRoutes` in `ingress/pods.go`), the
pod-cache and secret-cache event folders (`UpdatePodCacheForEvents`,
`UpdateSecretCacheForEvents`), the steady-state window step of the control
loop (`main.go`), and the nginx configuration compiler (`GetConf` and
`GetDefaultConf` in `nginx/config.go`), together with theorems checking the
specification's claims against these definitions.

Go strings are modelled as lists of characters (`Str`); Go maps used by the
code (`map[string]T`) are modelled as association lists with replace-on-insert
semantics, plus an explicit enumeration order where the Go code ranges over a
map.  Byte slices are lists of naturals.  Fallible operations (the Go code
dereferences a nil map entry in one branch) return `Option`.
-/

/-- Go strings, modelled as lists of characters (runes). -/
abbrev Str := List Char

/-- Coerce a Lean string literal to the `Str` model. -/
def str (s : String) : Str := s.data

/-- `strings.Split(s, sep)` for a one-character separator: splits around every
occurrence of `sep`; the empty string yields one empty field. -/
def splitOnChar (sep : Char) : Str → List Str
  | [] => [[]]
  | c :: rest =>
    let r := splitOnChar sep rest
    if c = sep then [] :: r
    else
      match r with
      | [] => [[c]]
      | t :: ts => (c :: t) :: ts

/-- Association-list lookup, modelling Go map indexing `m[k]` (the `ok` form). -/
def lookupA {α : Type} : List (Str × α) → Str → Option α
  | [], _ => none
  | (k, v) :: rest, key => if k = key then some v else lookupA rest key

/-- Association-list insert, modelling Go map assignment `m[k] = v`:
replaces the binding if the key is present, otherwise appends it. -/
def insertA {α : Type} : List (Str × α) → Str → α → List (Str × α)
  | [], key, v => [(key, v)]
  | (k, w) :: rest, key, v =>
    if k = key then (key, v) :: rest else (k, w) :: insertA rest key v

/-- Association-list erase, modelling Go `delete(m, k)`. -/
def eraseA {α : Type} : List (Str × α) → Str → List (Str × α)
  | [], _ => []
  | (k, w) :: rest, key =>
    if k = key then rest else (k, w) :: eraseA rest key

/-- Decimal digit test (ASCII). -/
def isDigitC (c : Char) : Bool := 48 ≤ c.toNat && c.toNat ≤ 57

/-- ASCII letter or digit. -/
def isAlnumC (c : Char) : Bool :=
  (65 ≤ c.toNat && c.toNat ≤ 90) || (97 ≤ c.toNat && c.toNat ≤ 122) || isDigitC c

/-- ASCII letter, digit or hyphen: the interior class of a hostname label. -/
def isAlnumHyphenC (c : Char) : Bool := isAlnumC c || c = '-'

/-- Hexadecimal digit (both cases). -/
def isHexDigitC (c : Char) : Bool :=
  isDigitC c || (65 ≤ c.toNat && c.toNat ≤ 70) || (97 ≤ c.toNat && c.toNat ≤ 102)

/-- Numeric value of a digit string (used after an all-digits check). -/
def digitsToNat (s : Str) : Nat := s.foldl (fun a c => a * 10 + (c.toNat - 48)) 0

/-- `strconv.Atoi` (syntax only): an optional single sign followed by at least
one decimal digit; anything else is an error (`none`). -/
def atoi (s : Str) : Option Int :=
  match s with
  | [] => none
  | '+' :: rest =>
    if rest ≠ [] ∧ rest.all isDigitC then some (digitsToNat rest) else none
  | '-' :: rest =>
    if rest ≠ [] ∧ rest.all isDigitC then some (-(digitsToNat rest : Int)) else none
  | _ => if s.all isDigitC then some (digitsToNat s) else none

/-- One label of a hostname, per the alternation
`[a-zA-Z0-9]|[a-zA-Z0-9][a-zA-Z0-9-]*[a-zA-Z0-9]` of `hostnameRegexStr`:
nonempty, alphanumeric first and last characters, alphanumeric-or-hyphen
interior. -/
def labelOk (l : Str) : Bool :=
  !l.isEmpty && isAlnumC (l.headD ' ') && isAlnumC (l.getLastD ' ')
    && l.all isAlnumHyphenC

/-- `hostnameRegex.MatchString`: the anchored regex matches exactly the
'.'-joins of valid labels (labels cannot contain a dot, so splitting on '.'
is faithful). -/
def hostnameMatch (s : Str) : Bool := (splitOnChar '.' s).all labelOk

/-- One octet of a dotted quad, per
`[0-9]|[1-9][0-9]|1[0-9]{2}|2[0-4][0-9]|25[0-5]`: one to three digits, no
leading zero for multi-digit forms, value at most 255. -/
def octetOk (o : Str) : Bool :=
  !o.isEmpty && o.all isDigitC && o.length ≤ 3
    && (o.length == 1 || o.headD ' ' ≠ '0') && digitsToNat o ≤ 255

/-- `ipRegex.MatchString`: exactly four valid octets joined by dots. -/
def ipMatch (s : Str) : Bool :=
  let ps := splitOnChar '.' s
  ps.length == 4 && ps.all octetOk

/-- The character class `[A-Za-z0-9-._~!$&'()*+,;=:@]` of
`pathSegmentRegexStr`. -/
def pathSegClass (c : Char) : Bool :=
  isAlnumC c ||
    ['-', '.', '_', '~', '!', '$', '&', '\'', '(', ')', '*', '+', ',', ';',
      '=', ':', '@'].contains c

/-- `pathSegmentRegex.MatchString` for the (unanchored search of the) pattern
`^[class]|%[0-9A-Fa-f]{2}$`: the string either starts with a class character
or ends in a percent escape.  (This is the regex exactly as written in the
source; the alternation binds the anchors to the two alternatives.) -/
def pathSegmentMatch (s : Str) : Bool :=
  (match s with
   | [] => false
   | c :: _ => pathSegClass c) ||
  (match s.reverse with
   | h2 :: h1 :: '%' :: _ => isHexDigitC h1 && isHexDigitC h2
   | _ => false)

/-- The per-path validation loop of `GetRoutes`: split the path on `/`; a
segment passes when it is an empty first-or-second segment (the code's
skip condition compares against `len(pathParts)-1 = 1`, not the last segment
index) or matches the path-segment regex. -/
def pathOk (s : Str) : Bool :=
  ((splitOnChar '/' s).enum).all fun p =>
    ((p.fst == 0 || p.fst == 1) && p.snd.isEmpty) || pathSegmentMatch p.snd

/-- A single host token of the hosts annotation is kept when it matches the
hostname regex or the IP regex. -/
def hostValid (s : Str) : Bool := hostnameMatch s || ipMatch s

/-- The phase string of a running pod (`api.PodRunning`). -/
def phaseRunning : Str := str "Running"

/-- `KeyMicroserviceL`, the label identifying microservice pods (the same
string is also read back as an annotation by the cache updater). -/
def keyMicroserviceL : Str := str "microservice"

/-- `KeyTrafficHostsA`, the annotation listing traffic hosts. -/
def keyTrafficHostsA : Str := str "trafficHosts"

/-- `KeyPublicPathsA`, the annotation listing `PORT:PATH` pairs. -/
def keyPublicPathsA : Str := str "publicPaths"

/-- The fields of `api.Pod` read by the core: name, namespace, labels,
annotations, phase and assigned IP (empty until scheduled). -/
structure Pod where
  name : Str
  nspace : Str
  labels : List (Str × Str)
  annotations : List (Str × Str)
  phase : Str
  podIP : Str
deriving DecidableEq

/-- `Incoming`: the matching side of a route. -/
structure Incoming where
  host : Str
  path : Str
deriving DecidableEq

/-- `Outgoing`: the backend side of a route. -/
structure Outgoing where
  ip : Str
  port : Str
deriving DecidableEq

/-- `Route`: one host+path to ip+port mapping derived from a pod. -/
structure Route where
  incoming : Incoming
  outgoing : Outgoing
deriving DecidableEq

/-- The `pathPair` helper of `GetRoutes`. -/
structure PathPair where
  path : Str
  port : Str
deriving DecidableEq

/-- Go `pod.Annotations[k]` in its one-result form: the empty string when the
key is absent. -/
def annotGet (pod : Pod) (k : Str) : Str := (lookupA pod.annotations k).getD []

/-- The `PORT:PATH` token parser inside `GetRoutes`: the token must split on
`:` into exactly two parts; the port must parse and lie in (0, 65536); the
path is validated (only when the parsed port is positive) by `pathOk`; the
pair is kept only when both fields were set. -/
def parsePathPair (publicPath : Str) : Option PathPair :=
  let parts := splitOnChar ':' publicPath
  if parts.length = 2 then
    let portStr := parts.headD []
    let pathStr := parts.getD 1 []
    let portNum := atoi portStr
    let portField : Str :=
      match portNum with
      | some p => if 0 < p ∧ p < 65536 then portStr else []
      | none => []
    let pathField : Str :=
      match portNum with
      | some p => if 0 < p then (if pathOk pathStr then pathStr else []) else []
      | none => []
    if pathField ≠ [] ∧ portField ≠ [] then some ⟨pathField, portField⟩ else none
  else none

/-- The valid host tokens of a pod's hosts annotation (split on spaces,
invalid tokens dropped). -/
def extractHosts (ann : Str) : List Str :=
  (splitOnChar ' ' ann).filter hostValid

/-- The valid port/path pairs of a pod's paths annotation (split on spaces,
invalid tokens dropped). -/
def extractPathPairs (ann : Str) : List PathPair :=
  (splitOnChar ' ' ann).filterMap parsePathPair

/-- The host × pair cross product materialised by the final loop of
`GetRoutes`. -/
def crossRoutes (hosts : List Str) (pathPairs : List PathPair) (ip : Str) :
    List Route :=
  hosts.flatMap fun h =>
    pathPairs.map fun pr =>
      { incoming := { host := h, path := pr.path },
        outgoing := { ip := ip, port := pr.port } }

/-- `GetRoutes` (`ingress/pods.go`): derive the routes encoded in one pod's
annotations.  Non-running pods and pods without the hosts annotation yield no
routes; the paths annotation is only consulted when at least one valid host
exists; the result is the cross product of the valid hosts and valid pairs. -/
def GetRoutes (pod : Pod) : List Route :=
  if pod.phase = phaseRunning then
    match lookupA pod.annotations keyTrafficHostsA with
    | some ann =>
      let hosts := extractHosts ann
      let pathPairs :=
        if hosts.length > 0 then
          match lookupA pod.annotations keyPublicPathsA with
          | some pa => extractPathPairs pa
          | none => []
        else []
      if hosts ≠ [] ∧ pathPairs ≠ [] then crossRoutes hosts pathPairs pod.podIP
      else []
    | none => []
  else []

/-- `watch.EventType`: the three event kinds folded by the cache updaters. -/
inductive EventType where
  | added
  | modified
  | deleted
deriving DecidableEq

/-- A pod watch event (the code coerces `event.Object` to `*api.Pod`). -/
structure PodEvent where
  etype : EventType
  pod : Pod
deriving DecidableEq

/-- `PodWithRoutes` (ingress version): a pod together with its derived
routes. -/
structure PodWithRoutes where
  pod : Pod
  routes : List Route
deriving DecidableEq

/-- The pod cache: Go `map[string]*PodWithRoutes` keyed by pod name. -/
abbrev PodCache := List (Str × PodWithRoutes)

/-- One iteration of the event loop in `UpdatePodCacheForEvents`.  `none`
models the nil-pointer dereference the Go code performs when a Modified event
arrives for a qualifying pod with no cache entry (`cache[pod.Name].Pod = pod`
on a missing key). -/
def updatePodCacheStep (st : PodCache × Bool) (ev : PodEvent) :
    Option (PodCache × Bool) :=
  let cache := st.fst
  let needs := st.snd
  let pod := ev.pod
  match ev.etype with
  | .added => some (insertA cache pod.name ⟨pod, GetRoutes pod⟩, true)
  | .deleted => some (eraseA cache pod.name, true)
  | .modified =>
    match lookupA pod.labels keyMicroserviceL with
    | some val =>
      if val ≠ str "true" then some (eraseA cache pod.name, true)
      else
        match lookupA cache pod.name with
        | none => none
        | some cached =>
          let changed : Bool :=
            annotGet pod keyMicroserviceL != annotGet cached.pod keyMicroserviceL ||
            annotGet pod keyTrafficHostsA != annotGet cached.pod keyTrafficHostsA ||
            annotGet pod keyPublicPathsA != annotGet cached.pod keyPublicPathsA
          some (insertA cache pod.name ⟨pod, GetRoutes pod⟩, needs || changed)
    | none => some (eraseA cache pod.name, true)

/-- `UpdatePodCacheForEvents` (`ingress/pods.go`): fold a batch of pod events
over the cache, reporting whether a restart is warranted. -/
def UpdatePodCacheForEvents (cache : PodCache) (events : List PodEvent) :
    Option (PodCache × Bool) :=
  events.foldlM updatePodCacheStep (cache, false)

/-- The fields of `api.Secret` read by the core: name, namespace and the
data map (byte values as lists of naturals). -/
structure Secret where
  name : Str
  nspace : Str
  data : List (Str × List Nat)
deriving DecidableEq

/-- A secret watch event. -/
structure SecretEvent where
  etype : EventType
  secret : Secret
deriving DecidableEq

/-- The secret cache: Go `map[string]*api.Secret` keyed by namespace. -/
abbrev SecretCache := List (Str × Secret)

/-- One iteration of the event loop in `UpdateSecretCacheForEvents`.  On
Modified, a restart is flagged only when a cached entry exists and the
configured data field's byte content differs (absence counts as nil). -/
def updateSecretCacheStep (field : Str) (st : SecretCache × Bool)
    (ev : SecretEvent) : SecretCache × Bool :=
  let cache := st.fst
  let needs := st.snd
  let s := ev.secret
  let ns := s.nspace
  match ev.etype with
  | .added => (insertA cache ns s, true)
  | .deleted => (eraseA cache ns, true)
  | .modified =>
    let trig : Bool :=
      match lookupA cache ns with
      | some cached => lookupA s.data field != lookupA cached.data field
      | none => false
    (insertA cache ns s, needs || trig)

/-- `UpdateSecretCacheForEvents`: fold a batch of secret events over the
namespace-keyed cache.  The data-field key is passed explicitly: the
config-taking variant uses `config.APIKeySecretDataField`, the constant
variant uses `"api-key"`; the folding logic is identical. -/
def UpdateSecretCacheForEvents (field : Str) (cache : SecretCache)
    (events : List SecretEvent) : SecretCache × Bool :=
  events.foldl (updateSecretCacheStep field) (cache, false)

/-- The steady-state window step of `main`: apply the pod-event batch (if
nonempty), then apply the secret-event batch only when the pod application
did not already report that a restart is needed.  `none` propagates the pod
updater's fault. -/
def processWindow (field : Str) (pods : PodCache) (secrets : SecretCache)
    (podEvents : List PodEvent) (secretEvents : List SecretEvent) :
    Option (PodCache × SecretCache × Bool) :=
  let podStep : Option (PodCache × Bool) :=
    if podEvents ≠ [] then UpdatePodCacheForEvents pods podEvents
    else some (pods, false)
  match podStep with
  | none => none
  | some (pods2, needs1) =>
    if needs1 = false ∧ secretEvents ≠ [] then
      let r := UpdateSecretCacheForEvents field secrets secretEvents
      some (pods2, r.fst, r.snd)
    else some (pods2, secrets, needs1)

/-- Decimal rendering of a natural (`fmt.Sprint` on an unsigned value). -/
def natDec (n : Nat) : Str := Nat.toDigits 10 n

/-- 32-bit FNV-1a over the characters of a string (the inputs hashed by the
code are ASCII, for which runes and UTF-8 bytes coincide). -/
def fnv32a (s : Str) : Nat :=
  s.foldl (fun h c => ((h ^^^ c.toNat) * 16777619) % 4294967296) 2166136261

/-- The standard base64 alphabet. -/
def base64Alphabet : Str :=
  str "ABCDEFGHIJKLMNOPQRSTUVWXYZabcdefghijklmnopqrstuvwxyz0123456789+/"

/-- `base64.StdEncoding.EncodeToString` over byte values; the empty input
yields the empty string. -/
def base64Encode : List Nat → Str
  | [] => []
  | [b1] =>
    [base64Alphabet.getD (b1 / 4) 'A', base64Alphabet.getD (b1 % 4 * 16) 'A',
      '=', '=']
  | [b1, b2] =>
    [base64Alphabet.getD (b1 / 4) 'A',
      base64Alphabet.getD (b1 % 4 * 16 + b2 / 16) 'A',
      base64Alphabet.getD (b2 % 16 * 4) 'A', '=']
  | b1 :: b2 :: b3 :: rest =>
    [base64Alphabet.getD (b1 / 4) 'A',
      base64Alphabet.getD (b1 % 4 * 16 + b2 / 16) 'A',
      base64Alphabet.getD (b2 % 16 * 4 + b3 / 64) 'A',
      base64Alphabet.getD (b3 % 64) 'A'] ++ base64Encode rest

/-- Go byte-wise lexicographic string comparison (`<`), used both by
`sort.Strings` inside the template engine's sorted map ranging and by the
upstream-server sort. -/
def strLtB : Str → Str → Bool
  | [], [] => false
  | [], _ :: _ => true
  | _ :: _, [] => false
  | a :: as, b :: bs =>
    if a.toNat < b.toNat then true
    else if b.toNat < a.toNat then false
    else strLtB as bs

/-- `router.Config`, restricted to the fields the nginx compiler reads. -/
structure RouterConfig where
  apiKeyHeader : Str
  apiKeySecret : Str
  apiKeySecretDataField : Str
  hostsAnnotation : Str
  pathsAnnotation : Str
  port : Nat
deriving DecidableEq

/-- `router.PodWithRoutes`: the cache entry consumed by the compiler. -/
structure RPodWithRoutes where
  name : Str
  nspace : Str
  status : Str
  annotationHash : Nat
  routes : List Route
deriving DecidableEq

/-- `serverT`: one proxy target; `pod` is nil for upstream references. -/
structure ServerT where
  isUpstream : Bool
  pod : Option RPodWithRoutes
  target : Str
deriving DecidableEq

/-- `locationT`: one location block under a host. -/
structure LocationT where
  nspace : Str
  path : Str
  secret : Str
  server : ServerT
deriving DecidableEq

/-- `hostT`: the locations of one server name plus the default-location
flag. -/
structure HostT where
  locations : List (Str × LocationT)
  needsDefaultLocation : Bool
deriving DecidableEq

/-- `upstreamT`: a named group of proxy targets for one host+path. -/
structure UpstreamT where
  host : Str
  name : Str
  path : Str
  servers : List ServerT
deriving DecidableEq

/-- `templateDataT`: the structure handed to the template engine. -/
structure TemplateDataT where
  apiKeyHeader : Str
  hosts : List (Str × HostT)
  port : Nat
  upstreams : List (Str × UpstreamT)
deriving DecidableEq

/-- The sort key of `serversT.Less`: the originating pod's name. -/
def serverSortKey (sv : ServerT) : Str := (sv.pod.map RPodWithRoutes.name).getD []

/-- `sort.Sort(upstream.Servers)`: sort by pod name.  Go's `sort.Sort` runs
insertion sort at these sizes, which is stable, so a stable insertion sort is
a faithful model. -/
def sortServers (l : List ServerT) : List ServerT :=
  List.insertionSort (fun a b => strLtB (serverSortKey a) (serverSortKey b) = true) l

/-- The proxy target of a route: the pod IP, with `:port` appended unless the
port is 80 or 443 (canonical-port elision). -/
def routeTarget (r : Route) : Str :=
  r.outgoing.ip ++
    (if r.outgoing.port ≠ str "80" ∧ r.outgoing.port ≠ str "443"
     then ':' :: r.outgoing.port else [])

/-- The upstream map key: incoming host concatenated with incoming path. -/
def upstreamKeyOf (r : Route) : Str := r.incoming.host ++ r.incoming.path

/-- The generated upstream name: `"upstream"` + decimal FNV-1a of the key. -/
def upstreamNameOf (key : Str) : Str := str "upstream" ++ natDec (fnv32a key)

/-- The per-route body of the pod loop in `GetConf` (`nginx/config.go`
lines 215-307): ensure the host entry, compute the location secret from the
pod's namespace, clear the default-location flag on a `/` path, and either
create the location (single-backend fast path), leave it alone when the
target is already the location's, or promote/extend the upstream block for
the host+path. -/
def routeStep (dataField : Str) (secrets : SecretCache)
    (cacheEntry : RPodWithRoutes) (td : TemplateDataT) (route : Route) :
    TemplateDataT :=
  let hosts1 :=
    match lookupA td.hosts route.incoming.host with
    | some _ => td.hosts
    | none =>
      insertA td.hosts route.incoming.host
        { locations := [], needsDefaultLocation := true }
  let host := (lookupA hosts1 route.incoming.host).getD
    { locations := [], needsDefaultLocation := true }
  let locationSecret : Str :=
    match lookupA secrets cacheEntry.nspace with
    | some sec => base64Encode ((lookupA sec.data dataField).getD [])
    | none => []
  let upstreamKey := upstreamKeyOf route
  let upstreamName := upstreamNameOf upstreamKey
  let target := routeTarget route
  let host2 :=
    if host.needsDefaultLocation ∧ route.incoming.path = str "/" then
      { host with needsDefaultLocation := false }
    else host
  match lookupA host2.locations route.incoming.path with
  | some location =>
    if location.server.target ≠ target then
      let upstreams2 :=
        match lookupA td.upstreams upstreamKey with
        | some up =>
          if up.servers.any (fun sv => sv.target == target) then td.upstreams
          else
            insertA td.upstreams upstreamKey
              { up with
                  servers := sortServers
                    (up.servers ++ [⟨false, some cacheEntry, target⟩]) }
        | none =>
          insertA td.upstreams upstreamKey
            { name := upstreamName, host := route.incoming.host,
              path := route.incoming.path,
              servers := [location.server, ⟨false, some cacheEntry, target⟩] }
      let location2 := { location with server := ⟨true, none, upstreamName⟩ }
      { td with
          hosts := insertA hosts1 route.incoming.host
            { host2 with
                locations := insertA host2.locations route.incoming.path
                  location2 },
          upstreams := upstreams2 }
    else { td with hosts := insertA hosts1 route.incoming.host host2 }
  | none =>
    let location : LocationT :=
      { nspace := cacheEntry.nspace, path := route.incoming.path,
        secret := locationSecret, server := ⟨false, some cacheEntry, target⟩ }
    { td with
        hosts := insertA hosts1 route.incoming.host
          { host2 with
              locations := insertA host2.locations route.incoming.path
                location } }

/-- The pod loop of `GetConf`: fold every route of every cache entry, in the
given enumeration order of the pod map, into the template data. -/
def buildTemplateData (config : RouterConfig) (apiKeyHeader : Str)
    (podsEnum : List RPodWithRoutes) (secrets : SecretCache) : TemplateDataT :=
  podsEnum.foldl
    (fun td e => e.routes.foldl (routeStep config.apiKeySecretDataField secrets e) td)
    { apiKeyHeader := apiKeyHeader, hosts := [], port := config.port,
      upstreams := [] }

/-- The keys of an association list in the order Go's template engine ranges
over a map: sorted. -/
def sortedKeys {α : Type} (l : List (Str × α)) : List Str :=
  List.insertionSort (fun a b => strLtB a b = true) (l.map Prod.fst)

/-- `defaultNginxLocationTmpl`: the synthesized 404 location. -/
def defaultNginxLocationText : Str :=
  str "\n    # Here to avoid returning the nginx welcome page for servers that do not have a \"/\" location.  (Issue #35)\n    location / \x7b\n      return 404;\n    \x7d\n"

/-- `defaultNginxServerConfTmpl` rendered at a port: the catch-all server
that closes the connection. -/
def defaultNginxServerConfText (port : Nat) : Str :=
  str "\n  # Default server that will just close the connection as if there was no server available\n  server \x7b\n    listen " ++
    natDec port ++ str " default_server;\n    return 444;\n  \x7d\n"

/-- `httpConfPreambleTmpl`: the static http-block preamble. -/
def httpConfPreambleText : Str :=
  str "\n  # http://nginx.org/en/docs/http/ngx_http_core_module.html\n  types_hash_max_size 2048;\n  server_names_hash_max_size 512;\n  server_names_hash_bucket_size 64;\n\n  # Force HTTP 1.1 for upstream requests\n  proxy_http_version 1.1;\n\n  # When nginx proxies to an upstream, the default value used for \x27Connection\x27 is \x27close\x27.  We use this variable to do\n  # the same thing so that whenever a \x27Connection\x27 header is in the request, the variable reflects the provided value\n  # otherwise, it defaults to \x27close\x27.  This is opposed to just using \"proxy_set_header Connection $http_connection\"\n  # which would remove the \x27Connection\x27 header from the upstream request whenever the request does not contain a\n  # \x27Connection\x27 header, which is a deviation from the nginx norm.\n  map $http_connection $p_connection \x7b\n    default $http_connection;\n    \x27\x27      close;\n  \x7d\n\n  # Pass through the appropriate headers\n  proxy_set_header Connection $p_connection;\n  proxy_set_header Host $http_host;\n  proxy_set_header Upgrade $http_upgrade;\n"

/-- The pod name shown in a server comment (`$server.Pod.Name`). -/
def serverPodName (sv : ServerT) : Str := (sv.pod.map RPodWithRoutes.name).getD []

/-- The pod namespace shown in a server comment (`$server.Pod.Namespace`). -/
def serverPodNs (sv : ServerT) : Str := (sv.pod.map RPodWithRoutes.nspace).getD []

/-- One line pair of the upstream server range of `nginxConfTmpl`. -/
def renderUpstreamServer (sv : ServerT) : Str :=
  str "    # Pod " ++ serverPodName sv ++ str " (namespace: " ++ serverPodNs sv ++
    str ")\n    server " ++ sv.target ++ str ";\n"

/-- One upstream block of `nginxConfTmpl`. -/
def renderUpstream (up : UpstreamT) : Str :=
  str "\n  # Upstream for " ++ up.path ++ str " traffic on " ++ up.host ++
    str "\n  upstream " ++ up.name ++ str " \x7b\n" ++
    (up.servers.flatMap renderUpstreamServer) ++ str "  \x7d\n"

/-- One location block of `nginxConfTmpl`, including the optional API-key
check conditional. -/
def renderLocation (apiKeyHeader : Str) (path : Str) (loc : LocationT) : Str :=
  str "\n    location " ++ path ++ str " \x7b\n      " ++
    (if loc.secret ≠ [] then
      str "# Check the Routing API Key (namespace: " ++ loc.nspace ++
        str ")\n      if ($http_" ++ apiKeyHeader ++ str " != \"" ++ loc.secret ++
        str "\") \x7b\n        return 403;\n      \x7d\n\n      "
     else []) ++
    (if loc.server.isUpstream then str "# Upstream " ++ loc.server.target
     else
      str "# Pod " ++ serverPodName loc.server ++ str " (namespace: " ++
        serverPodNs loc.server ++ str ")") ++
    str "\n      proxy_pass http://" ++ loc.server.target ++ str ";\n    \x7d\n"

/-- One server block of `nginxConfTmpl`: listen/server_name, the synthesized
default location when needed, then the locations in sorted path order. -/
def renderHost (apiKeyHeader : Str) (port : Nat) (hostname : Str) (h : HostT) :
    Str :=
  str "\n  server \x7b\n    listen " ++ natDec port ++
    str ";\n    server_name " ++ hostname ++ str ";\n" ++
    (if h.needsDefaultLocation then defaultNginxLocationText else []) ++
    ((sortedKeys h.locations).flatMap fun p =>
      match lookupA h.locations p with
      | some loc => renderLocation apiKeyHeader p loc
      | none => []) ++
    str "  \x7d\n"

/-- `nginxConfTmpl` rendered against the template data; Go's template engine
ranges over maps in sorted key order. -/
def renderNginxConf (td : TemplateDataT) : Str :=
  str "\nevents \x7b\n  worker_connections 1024;\n\x7d\nhttp \x7b" ++
    httpConfPreambleText ++
    ((sortedKeys td.upstreams).flatMap fun k =>
      match lookupA td.upstreams k with
      | some up => renderUpstream up
      | none => []) ++
    ((sortedKeys td.hosts).flatMap fun hk =>
      match lookupA td.hosts hk with
      | some h => renderHost td.apiKeyHeader td.port hk h
      | none => []) ++
    defaultNginxServerConfText td.port ++ str "\x7d\n"

/-- `defaultNginxConfTmpl` rendered against a config. -/
def renderDefaultNginxConf (config : RouterConfig) : Str :=
  str "\n# A very simple nginx configuration file that forces nginx to start as a daemon.\nevents \x7b\x7d\nhttp \x7b" ++
    defaultNginxServerConfText config.port ++ str "\x7d\ndaemon on;\n"

/-- The package-level mutable state of `nginx/config.go`: the cached default
configuration text and the cached nginx-normalized API-key header, both
empty-string sentinels. -/
structure NginxState where
  defaultNginxConf : Str
  nginxAPIKeyHeader : Str
deriving DecidableEq

/-- The initial nginx package state: both caches unset. -/
def initialNginxState : NginxState := { defaultNginxConf := [], nginxAPIKeyHeader := [] }

/-- The nginx normalization of the API-key header: every character that is
not an ASCII letter or digit becomes `_`, then the result is lowercased. -/
def normalizeAPIKeyHeader (h : Str) : Str :=
  (h.map fun c => if isAlnumC c then c else '_').map Char.toLower

/-- `convertAPIKeyHeaderForNginx`: compute and cache the normalized header
only when the package variable is still empty. -/
def convertAPIKeyHeaderForNginx (config : RouterConfig) (st : NginxState) :
    NginxState :=
  if st.nginxAPIKeyHeader = [] then
    { st with nginxAPIKeyHeader := normalizeAPIKeyHeader config.apiKeyHeader }
  else st

/-- `GetDefaultConf`: convert the header, then render the default
configuration only when the package variable is still empty, caching the
result; later calls return the cached text. -/
def GetDefaultConf (config : RouterConfig) (st : NginxState) :
    Str × NginxState :=
  let st1 := convertAPIKeyHeaderForNginx config st
  if st1.defaultNginxConf ≠ [] then (st1.defaultNginxConf, st1)
  else
    let doc := renderDefaultNginxConf config
    (doc, { st1 with defaultNginxConf := doc })

/-- `GetConf`: the configuration compiler.  The pod map's enumeration order
(over which the Go code ranges) is passed explicitly as `podsEnum`; an empty
cache falls back to `GetDefaultConf`. -/
def GetConf (config : RouterConfig) (st : NginxState)
    (podsEnum : List RPodWithRoutes) (secrets : SecretCache) :
    Str × NginxState :=
  if podsEnum.length = 0 then GetDefaultConf config st
  else
    let st1 := convertAPIKeyHeaderForNginx config st
    let td := buildTemplateData config st1.nginxAPIKeyHeader podsEnum secrets
    (renderNginxConf td, st1)

/-! ## Helper lemmas -/

theorem crossRoutes_length (hosts : List Str) (pathPairs : List PathPair)
    (ip : Str) :
    (crossRoutes hosts pathPairs ip).length = hosts.length * pathPairs.length := by
  induction hosts with
  | nil => simp [crossRoutes]
  | cons h t ih =>
    simp only [crossRoutes, List.flatMap_cons, List.length_append,
      List.length_map, List.length_cons] at ih ⊢
    rw [ih]
    ring

theorem crossRoutes_ip (hosts : List Str) (pathPairs : List PathPair) (ip : Str) :
    ∀ r ∈ crossRoutes hosts pathPairs ip, r.outgoing.ip = ip := by
  intro r hr
  simp [crossRoutes, List.mem_flatMap] at hr
  obtain ⟨h, -, pr, -, rfl⟩ := hr
  rfl

theorem eraseA_lookup_none {α : Type} (cache : List (Str × α)) (key : Str)
    (h : lookupA cache key = none) : eraseA cache key = cache := by
  induction cache with
  | nil => rfl
  | cons kv rest ih =>
    obtain ⟨k, v⟩ := kv
    by_cases hk : k = key
    · simp [lookupA, hk] at h
    · simp [lookupA, hk] at h
      simp [eraseA, hk, ih h]

/-- `GetRoutes` on a running pod with both annotations present computes the
guarded cross product. -/
theorem getRoutes_running (pod : Pod) (hostsAnn pathsAnn : Str)
    (hRun : pod.phase = phaseRunning)
    (hHosts : lookupA pod.annotations keyTrafficHostsA = some hostsAnn)
    (hPaths : lookupA pod.annotations keyPublicPathsA = some pathsAnn)
    (hNE : extractHosts hostsAnn ≠ [])
    (pNE : extractPathPairs pathsAnn ≠ []) :
    GetRoutes pod =
      crossRoutes (extractHosts hostsAnn) (extractPathPairs pathsAnn) pod.podIP := by
  have hlen : (extractHosts hostsAnn).length > 0 := List.length_pos.mpr hNE
  simp [GetRoutes, hRun, hHosts, hPaths, hlen, hNE, pNE]

/-! ## C9: cross-product correctness of the route extractor -/

/-- C9: for every running pod with an assigned IP whose hosts annotation
yields `h ≥ 1` valid hosts and whose paths annotation yields `p ≥ 1` valid
port/path pairs, `GetRoutes` returns exactly the `h × p` cross-product
routes, each pairing one valid host and one valid pair with the pod's IP. -/
theorem getRoutes_cross_product (pod : Pod) (hostsAnn pathsAnn : Str)
    (hRun : pod.phase = phaseRunning)
    (_hIP : pod.podIP ≠ [])
    (hHosts : lookupA pod.annotations keyTrafficHostsA = some hostsAnn)
    (hPaths : lookupA pod.annotations keyPublicPathsA = some pathsAnn)
    (hNE : (extractHosts hostsAnn).length ≥ 1)
    (pNE : (extractPathPairs pathsAnn).length ≥ 1) :
    GetRoutes pod =
      crossRoutes (extractHosts hostsAnn) (extractPathPairs pathsAnn) pod.podIP ∧
    (GetRoutes pod).length =
      (extractHosts hostsAnn).length * (extractPathPairs pathsAnn).length := by
  have hNE' : extractHosts hostsAnn ≠ [] := by
    intro h; rw [h] at hNE; simp at hNE
  have pNE' : extractPathPairs pathsAnn ≠ [] := by
    intro h; rw [h] at pNE; simp at pNE
  have heq := getRoutes_running pod hostsAnn pathsAnn hRun hHosts hPaths hNE' pNE'
  exact ⟨heq, by rw [heq, crossRoutes_length]⟩

/-- The concrete pod of the spec's cross-product example: two valid hosts and
two valid port/path pairs. -/
def c9pod : Pod :=
  { name := str "cross", nspace := str "ns",
    labels := [(str "microservice", str "true")],
    annotations :=
      [(str "trafficHosts", str "test.github.com www.github.com"),
        (str "publicPaths", str "3000:/ 3001:/admin")],
    phase := str "Running", podIP := str "10.244.1.17" }

theorem getRoutes_cross_product_witness :
    (GetRoutes c9pod).length = 4 := by
  have h := getRoutes_cross_product c9pod
    (str "test.github.com www.github.com") (str "3000:/ 3001:/admin")
    (by decide) (by decide) (by decide) (by decide) (by decide) (by decide)
  rw [h.2]
  decide

/-! ## C5: a running pod with no assigned IP -/

/-- The concrete counterexample pod for C5: running, one valid host, one
valid pair, empty IP. -/
def c5pod : Pod :=
  { name := str "noip", nspace := str "ns",
    labels := [(str "microservice", str "true")],
    annotations :=
      [(str "trafficHosts", str "test.github.com"),
        (str "publicPaths", str "3000:/")],
    phase := str "Running", podIP := [] }

/-- C5 counterexample: the claim says `GetRoutes` returns an empty route list
for a running pod with valid annotations and no assigned IP; on this concrete
pod the code returns one route (whose outgoing IP is the empty string). -/
theorem getRoutes_empty_ip_counterexample :
    GetRoutes c5pod ≠ [] ∧
    (GetRoutes c5pod).length = 1 ∧
    ∀ r ∈ GetRoutes c5pod, r.outgoing.ip = [] := by
  refine ⟨by decide, by decide, by decide⟩

/-- C5 amended: `GetRoutes` has no empty-IP guard; a running pod with h ≥ 1
valid hosts and p ≥ 1 valid pairs and an empty assigned IP yields the full
(nonempty) h × p cross product, every route of which carries the empty string
as its outgoing IP. -/
theorem getRoutes_empty_ip (pod : Pod) (hostsAnn pathsAnn : Str)
    (hRun : pod.phase = phaseRunning)
    (hIP : pod.podIP = [])
    (hHosts : lookupA pod.annotations keyTrafficHostsA = some hostsAnn)
    (hPaths : lookupA pod.annotations keyPublicPathsA = some pathsAnn)
    (hNE : (extractHosts hostsAnn).length ≥ 1)
    (pNE : (extractPathPairs pathsAnn).length ≥ 1) :
    GetRoutes pod ≠ [] ∧ ∀ r ∈ GetRoutes pod, r.outgoing.ip = [] := by
  have hNE' : extractHosts hostsAnn ≠ [] := by
    intro h; rw [h] at hNE; simp at hNE
  have pNE' : extractPathPairs pathsAnn ≠ [] := by
    intro h; rw [h] at pNE; simp at pNE
  have heq := getRoutes_running pod hostsAnn pathsAnn hRun hHosts hPaths hNE' pNE'
  constructor
  · rw [heq]
    intro hcontra
    have := crossRoutes_length (extractHosts hostsAnn)
      (extractPathPairs pathsAnn) pod.podIP
    rw [hcontra] at this
    simp at this
    rcases this with h | h
    · exact hNE' h
    · exact pNE' h
  · rw [heq, ← hIP]
    exact crossRoutes_ip _ _ _

theorem getRoutes_empty_ip_witness :
    GetRoutes c5pod ≠ [] ∧ ∀ r ∈ GetRoutes c5pod, r.outgoing.ip = [] :=
  getRoutes_empty_ip c5pod (str "test.github.com") (str "3000:/")
    (by decide) (by decide) (by decide) (by decide) (by decide) (by decide)

/-! ## C1: a Modified event that changes only the pod IP -/

/-- The cached pod of the C1 counterexample (IP `10.0.0.1`). -/
def c1podOld : Pod :=
  { name := str "p", nspace := str "ns",
    labels := [(str "microservice", str "true")],
    annotations :=
      [(str "trafficHosts", str "test.github.com"),
        (str "publicPaths", str "80:/")],
    phase := str "Running", podIP := str "10.0.0.1" }

/-- The modified pod of the C1 counterexample: identical labels and
annotations, new IP `10.0.0.2`. -/
def c1podNew : Pod :=
  { name := str "p", nspace := str "ns",
    labels := [(str "microservice", str "true")],
    annotations :=
      [(str "trafficHosts", str "test.github.com"),
        (str "publicPaths", str "80:/")],
    phase := str "Running", podIP := str "10.0.0.2" }

/-- The single-entry cache of the C1 counterexample. -/
def c1cache : PodCache := [(c1podOld.name, ⟨c1podOld, GetRoutes c1podOld⟩)]

/-- C1 counterexample: the recomputed routes of the modified pod differ in
outgoing target from the cached ones (the IP changed), yet
`UpdatePodCacheForEvents` reports `needs_reload = false` for the batch: the
code compares only the three routing annotations, never the route content. -/
theorem updatePodCache_ip_change_counterexample :
    GetRoutes c1podNew ≠ GetRoutes c1podOld ∧
    (GetRoutes c1podNew).map (fun r => r.outgoing.ip) = [str "10.0.0.2"] ∧
    (UpdatePodCacheForEvents c1cache [⟨.modified, c1podNew⟩]).map Prod.snd =
      some false := by
  refine ⟨by decide, by decide, by decide⟩

/-- C1 amended: for a Modified event on a qualifying pod with an existing
cache entry whose three routing annotations (`microservice`, `trafficHosts`,
`publicPaths`) are unchanged, `UpdatePodCacheForEvents` does NOT mark a
reload — even when the recomputed routes differ in outgoing target — though
it does store the fresh descriptor and recomputed routes in the entry. -/
theorem updatePodCache_ip_change_no_reload (cache : PodCache) (pod : Pod)
    (cached : PodWithRoutes)
    (hLbl : lookupA pod.labels keyMicroserviceL = some (str "true"))
    (hEntry : lookupA cache pod.name = some cached)
    (hA1 : annotGet pod keyMicroserviceL = annotGet cached.pod keyMicroserviceL)
    (hA2 : annotGet pod keyTrafficHostsA = annotGet cached.pod keyTrafficHostsA)
    (hA3 : annotGet pod keyPublicPathsA = annotGet cached.pod keyPublicPathsA)
    (_hDiff : GetRoutes pod ≠ cached.routes) :
    UpdatePodCacheForEvents cache [⟨.modified, pod⟩] =
      some (insertA cache pod.name ⟨pod, GetRoutes pod⟩, false) := by
  simp [UpdatePodCacheForEvents, updatePodCacheStep, hLbl, hEntry, hA1, hA2, hA3]

theorem updatePodCache_ip_change_no_reload_witness :
    UpdatePodCacheForEvents c1cache [⟨.modified, c1podNew⟩] =
      some (insertA c1cache c1podNew.name ⟨c1podNew, GetRoutes c1podNew⟩, false) :=
  updatePodCache_ip_change_no_reload c1cache c1podNew
    ⟨c1podOld, GetRoutes c1podOld⟩ (by decide) (by decide) (by decide)
    (by decide) (by decide) (by decide)

/-! ## C2: a Modified event for a qualifying pod with no cache entry -/

/-- C2: the Go code flags the restart for a qualifying Modified pod that has
no cache entry, but then executes `cache[pod.Name].Pod = pod` against the
missing entry: a nil-pointer dereference.  In the embedding the batch fold
returns `none` (a fault) instead of creating the entry. -/
theorem updatePodCache_modified_missing_entry_faults (cache : PodCache)
    (pod : Pod)
    (hLbl : lookupA pod.labels keyMicroserviceL = some (str "true"))
    (hNone : lookupA cache pod.name = none) :
    UpdatePodCacheForEvents cache [⟨.modified, pod⟩] = none := by
  simp [UpdatePodCacheForEvents, updatePodCacheStep, hLbl, hNone]

theorem updatePodCache_modified_missing_entry_faults_witness :
    UpdatePodCacheForEvents [] [⟨.modified, c1podNew⟩] = none :=
  updatePodCache_modified_missing_entry_faults [] c1podNew (by decide) rfl

/-! ## C4: a Deleted event for a pod absent from the cache -/

/-- The pod of the C4 counterexample (never in the cache). -/
def c4pod : Pod :=
  { name := str "ghost", nspace := str "ns", labels := [],
    annotations := [], phase := str "Running", podIP := [] }

/-- C4 counterexample: a Deleted event for a pod with no cache entry still
returns `needs_reload = true` (the code sets it unconditionally for Deleted);
the claim's `needs_reload = false` is refuted (the cache is indeed
unchanged). -/
theorem updatePodCache_delete_absent_counterexample :
    UpdatePodCacheForEvents [] [⟨.deleted, c4pod⟩] = some ([], true) ∧
    (UpdatePodCacheForEvents [] [⟨.deleted, c4pod⟩]).map Prod.snd ≠
      some false := by
  refine ⟨by decide, by decide⟩

/-- C4 amended: a Deleted event always marks a reload, present or not; for a
pod absent from the cache the cache is returned unchanged with
`needs_reload = true`. -/
theorem updatePodCache_delete_absent (cache : PodCache) (pod : Pod)
    (hNone : lookupA cache pod.name = none) :
    UpdatePodCacheForEvents cache [⟨.deleted, pod⟩] = some (cache, true) := by
  simp [UpdatePodCacheForEvents, updatePodCacheStep,
    eraseA_lookup_none cache pod.name hNone]

theorem updatePodCache_delete_absent_witness :
    UpdatePodCacheForEvents [] [⟨.deleted, c4pod⟩] = some ([], true) :=
  updatePodCache_delete_absent [] c4pod rfl

/-! ## C7: secret-event reload semantics -/

theorem updateSecretCacheStep_true (field : Str) (cache : SecretCache)
    (ev : SecretEvent) :
    (updateSecretCacheStep field (cache, true) ev).snd = true := by
  rcases ev with ⟨ty, s⟩
  cases ty <;> simp [updateSecretCacheStep]

theorem updateSecretCache_fold_true (field : Str) (events : List SecretEvent) :
    ∀ st : SecretCache × Bool, st.snd = true →
      (events.foldl (updateSecretCacheStep field) st).snd = true := by
  induction events with
  | nil => intro st h; exact h
  | cons e rest ih =>
    intro st h
    rw [List.foldl_cons]
    apply ih
    rcases st with ⟨c, b⟩
    cases h
    exact updateSecretCacheStep_true field c e

theorem updateSecretCache_mem_true (field : Str) (events : List SecretEvent) :
    ∀ st : SecretCache × Bool,
      (∃ ev ∈ events, ev.etype = .added ∨ ev.etype = .deleted) →
      (events.foldl (updateSecretCacheStep field) st).snd = true := by
  induction events with
  | nil => intro st h; simp at h
  | cons e rest ih =>
    intro st h
    rcases h with ⟨ev, hmem, hty⟩
    rcases List.mem_cons.mp hmem with rfl | hrest
    · rw [List.foldl_cons]
      apply updateSecretCache_fold_true
      rcases st with ⟨c, b⟩
      rcases ev with ⟨ty, s⟩
      rcases hty with h1 | h1 <;> (cases h1; simp [updateSecretCacheStep])
    · rw [List.foldl_cons]
      exact ih _ ⟨ev, hrest, hty⟩

/-- C7: reload semantics of the secret-event fold.  Added and Deleted events
always set `needs_reload` (for a single-event batch and for any batch
containing one); a Modified event with a cached entry for its namespace sets
`needs_reload` exactly when the configured data field's byte content differs
between the event's secret and the cached secret (absence modelled as
`none`) — in particular changes confined to other data fields do not set
it. -/
theorem updateSecretCache_reload_semantics :
    (∀ (field : Str) (cache : SecretCache) (s : Secret),
      (UpdateSecretCacheForEvents field cache [⟨.added, s⟩]).snd = true) ∧
    (∀ (field : Str) (cache : SecretCache) (s : Secret),
      (UpdateSecretCacheForEvents field cache [⟨.deleted, s⟩]).snd = true) ∧
    (∀ (field : Str) (cache : SecretCache) (s cached : Secret),
      lookupA cache s.nspace = some cached →
      ((UpdateSecretCacheForEvents field cache [⟨.modified, s⟩]).snd = true ↔
        lookupA s.data field ≠ lookupA cached.data field)) ∧
    (∀ (field : Str) (cache : SecretCache) (events : List SecretEvent),
      (∃ ev ∈ events, ev.etype = .added ∨ ev.etype = .deleted) →
      (UpdateSecretCacheForEvents field cache events).snd = true) := by
  refine ⟨?_, ?_, ?_, ?_⟩
  · intro field cache s
    simp [UpdateSecretCacheForEvents, updateSecretCacheStep]
  · intro field cache s
    simp [UpdateSecretCacheForEvents, updateSecretCacheStep]
  · intro field cache s cached h
    simp [UpdateSecretCacheForEvents, updateSecretCacheStep, h, bne_iff_ne]
  · intro field cache events h
    exact updateSecretCache_mem_true field events (cache, false) h

/-- The secret of the C7 witness (namespace `ns`, data field `api-key`). -/
def c7secret : Secret :=
  { name := str "routing", nspace := str "ns",
    data := [(str "api-key", [115, 117, 112])] }

/-- A modification of `c7secret` that changes only an unrelated data field. -/
def c7secretOther : Secret :=
  { name := str "routing", nspace := str "ns",
    data := [(str "api-key", [115, 117, 112]), (str "other", [1])] }

/-- A modification of `c7secret` that changes the `api-key` bytes. -/
def c7secretChanged : Secret :=
  { name := str "routing", nspace := str "ns",
    data := [(str "api-key", [99, 104])] }

theorem updateSecretCache_reload_semantics_witness :
    (UpdateSecretCacheForEvents (str "api-key") [] [⟨.added, c7secret⟩]).snd = true ∧
    (UpdateSecretCacheForEvents (str "api-key") [] [⟨.deleted, c7secret⟩]).snd = true ∧
    (UpdateSecretCacheForEvents (str "api-key") [(str "ns", c7secret)]
      [⟨.modified, c7secretChanged⟩]).snd = true ∧
    (UpdateSecretCacheForEvents (str "api-key") [(str "ns", c7secret)]
      [⟨.modified, c7secretOther⟩]).snd = false ∧
    (UpdateSecretCacheForEvents (str "api-key") []
      [⟨.modified, c7secret⟩, ⟨.added, c7secret⟩]).snd = true := by
  have h := updateSecretCache_reload_semantics
  refine ⟨h.1 _ _ _, h.2.1 _ _ _, ?_, ?_, ?_⟩
  · exact (h.2.2.1 (str "api-key") [(str "ns", c7secret)] c7secretChanged
      c7secret (by decide)).mpr (by decide)
  · have hiff := h.2.2.1 (str "api-key") [(str "ns", c7secret)] c7secretOther
      c7secret (by decide)
    have : ¬ ((UpdateSecretCacheForEvents (str "api-key") [(str "ns", c7secret)]
        [⟨.modified, c7secretOther⟩]).snd = true) := by
      rw [hiff]; decide
    exact Bool.not_eq_true _ ▸ this
  · exact h.2.2.2 (str "api-key") [] _ ⟨⟨.added, c7secret⟩, by decide, Or.inl rfl⟩

/-! ## C3: the steady-state window applies pods first, secrets conditionally -/

/-- The pod whose Deleted event triggers the C3 counterexample's reload. -/
def c3pod : Pod :=
  { name := str "gone", nspace := str "ns", labels := [],
    annotations := [], phase := str "Running", podIP := [] }

/-- The secret whose Added event is dropped in the C3 counterexample. -/
def c3secret : Secret :=
  { name := str "routing", nspace := str "ns",
    data := [(str "api-key", [107, 101, 121])] }

/-- C3 counterexample: in a window whose pod-event batch already reports
`needs_reload`, the collected secret-event batch is never applied to the
cache — the final secret cache is unchanged even though applying the batch
would have inserted the secret.  This refutes the claim that the secret
batch is applied regardless of the pod batch's outcome. -/
theorem processWindow_drops_secret_batch_counterexample :
    processWindow (str "api-key") [] [] [⟨.deleted, c3pod⟩]
        [⟨.added, c3secret⟩] = some ([], [], true) ∧
    (UpdateSecretCacheForEvents (str "api-key") []
        [⟨.added, c3secret⟩]).fst = [(str "ns", c3secret)] ∧
    ([] : SecretCache) ≠ [(str "ns", c3secret)] := by
  refine ⟨by decide, by decide, by decide⟩

/-- C3 amended: within a window the pod batch is folded first (in arrival
order); the secret batch is folded (in arrival order) only when the pod
application did not report a reload — when it did, the secret batch is
skipped entirely and the secret cache is left untouched for that window. -/
theorem processWindow_gating :
    (∀ (field : Str) (pods : PodCache) (secrets : SecretCache)
        (pe : List PodEvent) (se : List SecretEvent) (pods2 : PodCache),
      pe ≠ [] → UpdatePodCacheForEvents pods pe = some (pods2, true) →
      processWindow field pods secrets pe se = some (pods2, secrets, true)) ∧
    (∀ (field : Str) (pods : PodCache) (secrets : SecretCache)
        (pe : List PodEvent) (se : List SecretEvent) (pods2 : PodCache),
      pe ≠ [] → se ≠ [] →
      UpdatePodCacheForEvents pods pe = some (pods2, false) →
      processWindow field pods secrets pe se =
        some (pods2, (UpdateSecretCacheForEvents field secrets se).fst,
          (UpdateSecretCacheForEvents field secrets se).snd)) := by
  constructor
  · intro field pods secrets pe se pods2 hpe hpod
    simp [processWindow, hpe, hpod]
  · intro field pods secrets pe se pods2 hpe hse hpod
    simp [processWindow, hpe, hse, hpod]

theorem processWindow_gating_witness :
    processWindow (str "api-key") [] [] [⟨.deleted, c3pod⟩]
        [⟨.added, c3secret⟩] = some ([], [], true) ∧
    processWindow (str "api-key") [(c1podOld.name, ⟨c1podOld, GetRoutes c1podOld⟩)]
        [] [⟨.modified, c1podOld⟩] [⟨.added, c3secret⟩] =
      some ([(c1podOld.name, ⟨c1podOld, GetRoutes c1podOld⟩)],
        (UpdateSecretCacheForEvents (str "api-key") [] [⟨.added, c3secret⟩]).fst,
        (UpdateSecretCacheForEvents (str "api-key") [] [⟨.added, c3secret⟩]).snd) :=
  ⟨processWindow_gating.1 (str "api-key") [] [] [⟨.deleted, c3pod⟩]
      [⟨.added, c3secret⟩] [] (by decide) (by decide),
    processWindow_gating.2 (str "api-key")
      [(c1podOld.name, ⟨c1podOld, GetRoutes c1podOld⟩)] []
      [⟨.modified, c1podOld⟩] [⟨.added, c3secret⟩]
      [(c1podOld.name, ⟨c1podOld, GetRoutes c1podOld⟩)] (by decide) (by decide)
      (by decide)⟩

/-! ## C10: one-shot caching in GetDefaultConf -/

/-- A sequence of further `GetDefaultConf` calls, threading the package
state; returns the outputs in order and the final state. -/
def runGetDefaultConfCalls (st : NginxState) :
    List RouterConfig → List Str × NginxState
  | [] => ([], st)
  | c :: rest =>
    let r := GetDefaultConf c st
    let rr := runGetDefaultConfCalls r.snd rest
    (r.fst :: rr.fst, rr.snd)

theorem renderDefaultNginxConf_ne (c : RouterConfig) :
    renderDefaultNginxConf c ≠ [] := by
  simp [renderDefaultNginxConf, str]

theorem convertAPIKeyHeader_conf (c : RouterConfig) (st : NginxState) :
    (convertAPIKeyHeaderForNginx c st).defaultNginxConf = st.defaultNginxConf := by
  unfold convertAPIKeyHeaderForNginx
  split <;> rfl

theorem convertAPIKeyHeader_header (c : RouterConfig) (st : NginxState)
    (h : st.nginxAPIKeyHeader ≠ []) :
    (convertAPIKeyHeaderForNginx c st).nginxAPIKeyHeader = st.nginxAPIKeyHeader := by
  simp [convertAPIKeyHeaderForNginx, h]

theorem getDefaultConf_cached (c : RouterConfig) (st : NginxState)
    (h : st.defaultNginxConf ≠ []) :
    GetDefaultConf c st = (st.defaultNginxConf, convertAPIKeyHeaderForNginx c st) := by
  unfold GetDefaultConf
  rw [if_pos]
  · rw [convertAPIKeyHeader_conf]
  · rw [convertAPIKeyHeader_conf]; exact h

theorem runGetDefaultConfCalls_cached (cs : List RouterConfig) :
    ∀ st : NginxState, st.defaultNginxConf ≠ [] →
      (∀ out ∈ (runGetDefaultConfCalls st cs).fst, out = st.defaultNginxConf) ∧
      (runGetDefaultConfCalls st cs).snd.defaultNginxConf = st.defaultNginxConf ∧
      (st.nginxAPIKeyHeader ≠ [] →
        (runGetDefaultConfCalls st cs).snd.nginxAPIKeyHeader = st.nginxAPIKeyHeader) := by
  induction cs with
  | nil => intro st h; exact ⟨by simp [runGetDefaultConfCalls], rfl, fun _ => rfl⟩
  | cons c rest ih =>
    intro st h
    have hcall := getDefaultConf_cached c st h
    have hconf1 : (GetDefaultConf c st).snd.defaultNginxConf = st.defaultNginxConf := by
      rw [hcall, convertAPIKeyHeader_conf]
    have hne1 : (GetDefaultConf c st).snd.defaultNginxConf ≠ [] := by
      rw [hconf1]; exact h
    obtain ⟨ihOut, ihConf, ihHdr⟩ := ih (GetDefaultConf c st).snd hne1
    refine ⟨?_, ?_, ?_⟩
    · intro out hmem
      simp only [runGetDefaultConfCalls, List.mem_cons] at hmem
      rcases hmem with rfl | hmem
      · rw [hcall]
      · rw [ihOut out hmem, hconf1]
    · show (runGetDefaultConfCalls (GetDefaultConf c st).snd rest).snd.defaultNginxConf = _
      rw [ihConf, hconf1]
    · intro hh
      have hhdr1 : (GetDefaultConf c st).snd.nginxAPIKeyHeader = st.nginxAPIKeyHeader := by
        rw [hcall]; exact convertAPIKeyHeader_header c st hh
      have hne2 : (GetDefaultConf c st).snd.nginxAPIKeyHeader ≠ [] := by
        rw [hhdr1]; exact hh
      show (runGetDefaultConfCalls (GetDefaultConf c st).snd rest).snd.nginxAPIKeyHeader = _
      rw [ihHdr hne2, hhdr1]

/-- C10: `GetDefaultConf` memoizes its result in the package-level variable:
starting from the initial package state, the first call renders the default
configuration from its own config argument; every subsequent call — with any
config values, including different listen ports — returns the text rendered
on the first call; and the nginx-normalized API-key header is cached the same
one-shot way (the sentinel is the empty string, so the header stays pinned to
the first call's value whenever that value is nonempty). -/
theorem getDefaultConf_memoization (c1 : RouterConfig)
    (cs : List RouterConfig) :
    (GetDefaultConf c1 initialNginxState).fst = renderDefaultNginxConf c1 ∧
    (∀ out ∈ (runGetDefaultConfCalls (GetDefaultConf c1 initialNginxState).snd cs).fst,
      out = renderDefaultNginxConf c1) ∧
    (GetDefaultConf c1 initialNginxState).snd.nginxAPIKeyHeader =
      normalizeAPIKeyHeader c1.apiKeyHeader ∧
    (normalizeAPIKeyHeader c1.apiKeyHeader ≠ [] →
      (runGetDefaultConfCalls (GetDefaultConf c1 initialNginxState).snd cs).snd.nginxAPIKeyHeader =
        normalizeAPIKeyHeader c1.apiKeyHeader) := by
  have hfirst : GetDefaultConf c1 initialNginxState =
      (renderDefaultNginxConf c1,
        { defaultNginxConf := renderDefaultNginxConf c1,
          nginxAPIKeyHeader := normalizeAPIKeyHeader c1.apiKeyHeader }) := by
    simp [GetDefaultConf, convertAPIKeyHeaderForNginx, initialNginxState]
  obtain ⟨hOut, hConf, hHdr⟩ := runGetDefaultConfCalls_cached cs
    (GetDefaultConf c1 initialNginxState).snd
    (by rw [hfirst]; exact renderDefaultNginxConf_ne c1)
  refine ⟨by rw [hfirst], ?_, by rw [hfirst], ?_⟩
  · intro out hmem
    rw [hOut out hmem, hfirst]
  · intro hh
    have := hHdr (by rw [hfirst]; exact hh)
    rw [this, hfirst]

/-- A second config with a different listen port, for the C10 witness. -/
def c10cfgA : RouterConfig :=
  { apiKeyHeader := str "X-ROUTING-API-KEY", apiKeySecret := str "routing",
    apiKeySecretDataField := str "api-key",
    hostsAnnotation := str "routingHosts",
    pathsAnnotation := str "routingPaths", port := 80 }

/-- A second config with a different listen port and header. -/
def c10cfgB : RouterConfig :=
  { apiKeyHeader := str "X-OTHER-HEADER", apiKeySecret := str "other",
    apiKeySecretDataField := str "key",
    hostsAnnotation := str "h", pathsAnnotation := str "p", port := 9090 }

theorem getDefaultConf_memoization_witness :
    (GetDefaultConf c10cfgA initialNginxState).fst = renderDefaultNginxConf c10cfgA ∧
    (runGetDefaultConfCalls (GetDefaultConf c10cfgA initialNginxState).snd
        [c10cfgB]).fst = [renderDefaultNginxConf c10cfgA] ∧
    (GetDefaultConf c10cfgA initialNginxState).snd.nginxAPIKeyHeader =
      normalizeAPIKeyHeader c10cfgA.apiKeyHeader ∧
    (runGetDefaultConfCalls (GetDefaultConf c10cfgA initialNginxState).snd
        [c10cfgB]).snd.nginxAPIKeyHeader =
      normalizeAPIKeyHeader c10cfgA.apiKeyHeader := by
  have h := getDefaultConf_memoization c10cfgA [c10cfgB]
  refine ⟨h.1, ?_, h.2.2.1, h.2.2.2 (by decide)⟩
  have hstep : (runGetDefaultConfCalls (GetDefaultConf c10cfgA initialNginxState).snd
      [c10cfgB]).fst =
      [(GetDefaultConf c10cfgB (GetDefaultConf c10cfgA initialNginxState).snd).fst] := rfl
  rw [hstep]
  exact congrArg (fun z => [z])
    (h.2.1 _ (by rw [hstep]; exact List.mem_singleton_self _))

/-! ## C8: upstream promotion and deduplication -/

theorem insertA_lookup_self {α : Type} (l : List (Str × α)) (k : Str) (v : α)
    (h : lookupA l k = some v) : insertA l k v = l := by
  induction l with
  | nil => simp [lookupA] at h
  | cons kv rest ih =>
    obtain ⟨k0, v0⟩ := kv
    by_cases hk : k0 = k
    · subst hk
      simp [lookupA] at h
      simp [insertA, h]
    · simp [lookupA, hk] at h
      simp [insertA, hk, ih h]

/-- The template data that `GetConf` builds for a two-pod cache sharing one
host+path with two distinct targets: one upstream block seeded with both
targets and one location referencing it by name. -/
def twoPodTemplateData (hdr : Str) (cfg : RouterConfig) (e1 e2 : RPodWithRoutes)
    (r1 r2 : Route) : TemplateDataT :=
  { apiKeyHeader := hdr, port := cfg.port,
    hosts := [(r1.incoming.host,
      { locations := [(r1.incoming.path,
          { nspace := e1.nspace, path := r1.incoming.path, secret := [],
            server := ⟨true, none, upstreamNameOf (upstreamKeyOf r1)⟩ })],
        needsDefaultLocation := if r1.incoming.path = str "/" then false else true })],
    upstreams := [(upstreamKeyOf r1,
      { host := r1.incoming.host, name := upstreamNameOf (upstreamKeyOf r1),
        path := r1.incoming.path,
        servers := [⟨false, some e1, routeTarget r1⟩,
          ⟨false, some e2, routeTarget r2⟩] })] }

/-- C8: two pods with one route each on the same host+path but different
targets compile to a single upstream block holding both targets, seeded in
encounter order, with the one location re-pointed at the upstream name; a
third pod with a fresh target on the same host+path is appended to that same
upstream (up to the member sort); a third pod with a repeated target changes
nothing (no duplicate member). -/
theorem getConf_upstream_promotion (hdr : Str) (cfg : RouterConfig)
    (e1 e2 e3 : RPodWithRoutes) (r1 r2 r3 : Route)
    (h1 : e1.routes = [r1]) (h2 : e2.routes = [r2]) (h3 : e3.routes = [r3])
    (hin2 : r2.incoming = r1.incoming) (hin3 : r3.incoming = r1.incoming)
    (ht12 : routeTarget r2 ≠ routeTarget r1) :
    buildTemplateData cfg hdr [e1, e2] [] = twoPodTemplateData hdr cfg e1 e2 r1 r2 ∧
    (routeTarget r3 ≠ routeTarget r1 → routeTarget r3 ≠ routeTarget r2 →
      routeTarget r3 ≠ upstreamNameOf (upstreamKeyOf r1) →
      ((buildTemplateData cfg hdr [e1, e2, e3] []).upstreams.map Prod.fst =
          [upstreamKeyOf r1] ∧
        ∀ u, lookupA (buildTemplateData cfg hdr [e1, e2, e3] []).upstreams
            (upstreamKeyOf r1) = some u →
          u.name = upstreamNameOf (upstreamKeyOf r1) ∧
          (u.servers.map ServerT.target).Perm
            [routeTarget r1, routeTarget r2, routeTarget r3])) ∧
    (routeTarget r3 = routeTarget r2 →
      buildTemplateData cfg hdr [e1, e2, e3] [] =
        buildTemplateData cfg hdr [e1, e2] []) := by
  have ht21 : routeTarget r1 ≠ routeTarget r2 := Ne.symm ht12
  have hA : buildTemplateData cfg hdr [e1, e2] [] =
      twoPodTemplateData hdr cfg e1 e2 r1 r2 := by
    by_cases hp : r1.incoming.path = str "/" <;>
      simp [buildTemplateData, routeStep, twoPodTemplateData, h1, h2, hin2,
        upstreamKeyOf, lookupA, insertA, hp, ht21]
  have hstep3 : buildTemplateData cfg hdr [e1, e2, e3] [] =
      e3.routes.foldl (routeStep cfg.apiKeySecretDataField [] e3)
        (buildTemplateData cfg hdr [e1, e2] []) := by
    simp [buildTemplateData]
  refine ⟨hA, ?_, ?_⟩
  · intro ht31 ht32 ht3u
    have ht3u' : upstreamNameOf (upstreamKeyOf r1) ≠ routeTarget r3 := Ne.symm ht3u
    have h13 : routeTarget r1 ≠ routeTarget r3 := Ne.symm ht31
    have h23 : routeTarget r2 ≠ routeTarget r3 := Ne.symm ht32
    rw [hstep3, hA, h3]
    by_cases hp : r1.incoming.path = str "/" <;>
      · simp only [upstreamKeyOf, hp] at ht3u'
        simp [twoPodTemplateData, routeStep, hin3, upstreamKeyOf, lookupA,
          insertA, hp, ht3u', h13, h23, List.foldl_cons]
        exact ((List.perm_insertionSort _ _).map ServerT.target).trans (by simp)
  · intro hdup
    rw [hstep3, hA, h3]
    by_cases hnu : upstreamNameOf (upstreamKeyOf r1) = routeTarget r3
    · by_cases hp : r1.incoming.path = str "/" <;>
        · simp only [upstreamKeyOf, hp] at hnu
          simp [twoPodTemplateData, routeStep, hin3, upstreamKeyOf, lookupA,
            insertA, hp, hnu, List.foldl_cons]
    · by_cases hp : r1.incoming.path = str "/" <;>
        · simp only [upstreamKeyOf, hp] at hnu
          simp [twoPodTemplateData, routeStep, hin3, upstreamKeyOf, lookupA,
            insertA, hp, hnu, hdup, List.foldl_cons]

/-- Routes and pods for the C8 witness. -/
def c8r1 : Route :=
  { incoming := { host := str "test.github.com", path := str "/api" },
    outgoing := { ip := str "10.0.0.1", port := str "8080" } }

def c8r2 : Route :=
  { incoming := { host := str "test.github.com", path := str "/api" },
    outgoing := { ip := str "10.0.0.2", port := str "8080" } }

def c8r3 : Route :=
  { incoming := { host := str "test.github.com", path := str "/api" },
    outgoing := { ip := str "10.0.0.3", port := str "8080" } }

def c8r3dup : Route :=
  { incoming := { host := str "test.github.com", path := str "/api" },
    outgoing := { ip := str "10.0.0.2", port := str "8080" } }

def c8e1 : RPodWithRoutes :=
  { name := str "a-pod", nspace := str "ns1", status := str "Running",
    annotationHash := 0, routes := [c8r1] }

def c8e2 : RPodWithRoutes :=
  { name := str "b-pod", nspace := str "ns2", status := str "Running",
    annotationHash := 0, routes := [c8r2] }

def c8e3 : RPodWithRoutes :=
  { name := str "c-pod", nspace := str "ns3", status := str "Running",
    annotationHash := 0, routes := [c8r3] }

def c8e3dup : RPodWithRoutes :=
  { name := str "c-pod", nspace := str "ns3", status := str "Running",
    annotationHash := 0, routes := [c8r3dup] }

def c8cfg : RouterConfig :=
  { apiKeyHeader := str "X-ROUTING-API-KEY", apiKeySecret := str "routing",
    apiKeySecretDataField := str "api-key",
    hostsAnnotation := str "routingHosts",
    pathsAnnotation := str "routingPaths", port := 80 }

theorem getConf_upstream_promotion_witness :
    buildTemplateData c8cfg (str "x_routing_api_key") [c8e1, c8e2] [] =
      twoPodTemplateData (str "x_routing_api_key") c8cfg c8e1 c8e2 c8r1 c8r2 ∧
    (buildTemplateData c8cfg (str "x_routing_api_key")
        [c8e1, c8e2, c8e3] []).upstreams.map Prod.fst = [upstreamKeyOf c8r1] ∧
    buildTemplateData c8cfg (str "x_routing_api_key") [c8e1, c8e2, c8e3dup] [] =
      buildTemplateData c8cfg (str "x_routing_api_key") [c8e1, c8e2] [] := by
  have h := getConf_upstream_promotion (str "x_routing_api_key") c8cfg
    c8e1 c8e2 c8e3 c8r1 c8r2 c8r3 rfl rfl rfl rfl rfl (by decide)
  have hd := getConf_upstream_promotion (str "x_routing_api_key") c8cfg
    c8e1 c8e2 c8e3dup c8r1 c8r2 c8r3dup rfl rfl rfl rfl rfl (by decide)
  exact ⟨h.1, (h.2.1 (by decide) (by decide) (by decide)).1, hd.2.2 (by decide)⟩

/-! ## C6: enumeration-order (in)dependence of the compiler -/

/-- First pod of the C6 counterexample (name sorts second). -/
def c6podA : RPodWithRoutes :=
  { name := str "b-pod", nspace := str "nsa", status := str "Running",
    annotationHash := 0,
    routes := [{ incoming := { host := str "test.github.com", path := str "/" },
                 outgoing := { ip := str "10.0.0.1", port := str "80" } }] }

/-- Second pod of the C6 counterexample (name sorts first). -/
def c6podB : RPodWithRoutes :=
  { name := str "a-pod", nspace := str "nsb", status := str "Running",
    annotationHash := 0,
    routes := [{ incoming := { host := str "test.github.com", path := str "/" },
                 outgoing := { ip := str "10.0.0.2", port := str "80" } }] }

/-- The config used by the C6 counterexample. -/
def c6cfg : RouterConfig :=
  { apiKeyHeader := str "X-ROUTING-API-KEY", apiKeySecret := str "routing",
    apiKeySecretDataField := str "api-key",
    hostsAnnotation := str "routingHosts",
    pathsAnnotation := str "routingPaths", port := 80 }

set_option maxRecDepth 2000 in
/-- C6 counterexample: the two enumerations of the same two-entry pod map
(the two orders of ranging over `cache.Pods`) compile to different bytes:
the members of the newly created upstream block appear in encounter order
(the creation branch never sorts), so the `server` lines swap. -/
theorem getConf_enumeration_order_counterexample :
    [c6podA, c6podB].Perm [c6podB, c6podA] ∧
    (GetConf c6cfg initialNginxState [c6podA, c6podB] []).fst ≠
      (GetConf c6cfg initialNginxState [c6podB, c6podA] []).fst := by
  refine ⟨List.Perm.swap _ _ _, ?_⟩
  intro h
  have h1 : (GetConf c6cfg initialNginxState [c6podA, c6podB] []).fst =
      renderNginxConf (buildTemplateData c6cfg
        (normalizeAPIKeyHeader c6cfg.apiKeyHeader) [c6podA, c6podB] []) := rfl
  have h2 : (GetConf c6cfg initialNginxState [c6podB, c6podA] []).fst =
      renderNginxConf (buildTemplateData c6cfg
        (normalizeAPIKeyHeader c6cfg.apiKeyHeader) [c6podB, c6podA] []) := rfl
  rw [h1, h2] at h
  unfold renderNginxConf at h
  simp only [List.append_assoc] at h
  have h3 := List.append_cancel_left h
  have h4 := List.append_cancel_left h3
  have h5 := List.append_inj_left h4 (by decide)
  exact absurd h5 (by decide)

theorem lookupA_insertA {α : Type} (l : List (Str × α)) (k k' : Str) (v : α) :
    lookupA (insertA l k v) k' =
      if k = k' then some v else lookupA l k' := by
  induction l with
  | nil => simp [insertA, lookupA]
  | cons kv rest ih =>
    obtain ⟨k0, v0⟩ := kv
    by_cases h0 : k0 = k
    · subst h0
      by_cases h1 : k0 = k'
      · subst h1; simp [insertA, lookupA]
      · simp [insertA, lookupA, h1]
    · by_cases h1 : k0 = k'
      · subst h1
        have : k ≠ k0 := fun hc => h0 hc.symm
        simp [insertA, lookupA, h0, this, Ne.symm h0]
      · simp [insertA, lookupA, h0, h1, ih]

theorem insertA_lookup_none {α : Type} (l : List (Str × α)) (k : Str) (v : α)
    (h : lookupA l k = none) : insertA l k v = l ++ [(k, v)] := by
  induction l with
  | nil => rfl
  | cons kv rest ih =>
    obtain ⟨k0, v0⟩ := kv
    by_cases h0 : k0 = k
    · simp [lookupA, h0] at h
    · simp [lookupA, h0] at h
      simp [insertA, h0, ih h]

theorem keys_insertA {α : Type} (l : List (Str × α)) (k : Str) (v : α) :
    (insertA l k v).map Prod.fst =
      if (lookupA l k).isSome then l.map Prod.fst else l.map Prod.fst ++ [k] := by
  induction l with
  | nil => simp [insertA, lookupA]
  | cons kv rest ih =>
    obtain ⟨k0, v0⟩ := kv
    by_cases h0 : k0 = k
    · subst h0; simp [insertA, lookupA]
    · simp [insertA, lookupA, h0, ih]
      by_cases hs : (lookupA rest k).isSome <;> simp [hs]

theorem insertA_insertA {α : Type} (l : List (Str × α)) (k : Str) (a b : α) :
    insertA (insertA l k a) k b = insertA l k b := by
  induction l with
  | nil => simp [insertA]
  | cons kv rest ih =>
    obtain ⟨k0, v0⟩ := kv
    by_cases h0 : k0 = k
    · subst h0; simp [insertA]
    · simp [insertA, h0, ih]

/-- `strLtB` is irreflexive. -/
theorem strLtB_irrefl (a : Str) : strLtB a a = false := by
  induction a with
  | nil => rfl
  | cons c rest ih => simp [strLtB, ih]

/-- `strLtB` is asymmetric. -/
theorem strLtB_asymm (a b : Str) (h : strLtB a b = true) : strLtB b a = false := by
  induction a generalizing b with
  | nil =>
    cases b with
    | nil => simp [strLtB] at h
    | cons d bs => rfl
  | cons c as ih =>
    cases b with
    | nil => simp [strLtB] at h
    | cons d bs =>
      rcases Nat.lt_trichotomy c.toNat d.toNat with hlt | heq | hgt
      · simp [strLtB, Nat.lt_asymm hlt, hlt]
      · simp only [strLtB, heq, Nat.lt_irrefl, if_false] at h ⊢
        exact ih bs h
      · simp [strLtB, Nat.lt_asymm hgt, hgt] at h

/-- `strLtB` is transitive. -/
theorem strLtB_trans (a b c : Str) (hab : strLtB a b = true)
    (hbc : strLtB b c = true) : strLtB a c = true := by
  induction a generalizing b c with
  | nil =>
    cases c with
    | nil =>
      cases b with
      | nil => exact hab
      | cons d bs => simp [strLtB] at hbc
    | cons e cs => rfl
  | cons x as ih =>
    cases b with
    | nil => simp [strLtB] at hab
    | cons y bs =>
      cases c with
      | nil => simp [strLtB] at hbc
      | cons z cs =>
        rcases Nat.lt_trichotomy x.toNat y.toNat with hxy | hxy | hxy
        · rcases Nat.lt_trichotomy y.toNat z.toNat with hyz | hyz | hyz
          · simp [strLtB, Nat.lt_trans hxy hyz]
          · have hxz : x.toNat < z.toNat := by rw [← hyz]; exact hxy
            simp [strLtB, hxz]
          · simp [strLtB, Nat.lt_asymm hyz, hyz] at hbc
        · rcases Nat.lt_trichotomy y.toNat z.toNat with hyz | hyz | hyz
          · have hxz : x.toNat < z.toNat := by rw [hxy]; exact hyz
            simp [strLtB, hxz]
          · have hxz : x.toNat = z.toNat := hxy.trans hyz
            simp only [strLtB, hxy, Nat.lt_irrefl, if_false] at hab
            simp only [strLtB, hyz, Nat.lt_irrefl, if_false] at hbc
            simp only [strLtB, hxz, Nat.lt_irrefl, if_false]
            exact ih bs cs hab hbc
          · simp [strLtB, Nat.lt_asymm hyz, hyz] at hbc
        · simp [strLtB, Nat.lt_asymm hxy, hxy] at hab

/-- Two strings neither of which is below the other are equal. -/
theorem strLtB_connex (a b : Str) (hab : strLtB a b = false)
    (hba : strLtB b a = false) : a = b := by
  induction a generalizing b with
  | nil =>
    cases b with
    | nil => rfl
    | cons d bs => simp [strLtB] at hab
  | cons c as ih =>
    cases b with
    | nil => simp [strLtB] at hba
    | cons d bs =>
      rcases Nat.lt_trichotomy c.toNat d.toNat with hlt | heq | hgt
      · simp [strLtB, hlt] at hab
      · have hc : c = d := Char.ext (UInt32.ext heq)
        subst hc
        simp only [strLtB, Nat.lt_irrefl, if_false] at hab hba
        rw [ih bs hab hba]
      · simp [strLtB, hgt, Nat.lt_asymm hgt] at hba

/-- The weak order associated with `strLtB` (clause order of the Go sort). -/
def keyLe (a b : Str) : Prop := strLtB b a = false

instance : IsAntisymm Str keyLe :=
  ⟨fun a b h1 h2 => strLtB_connex a b h2 h1⟩

theorem pairwise_keyLe_orderedInsert (x : Str) (l : List Str)
    (h : l.Pairwise keyLe) :
    (List.orderedInsert (fun a b => strLtB a b = true) x l).Pairwise keyLe := by
  induction l with
  | nil => simp [List.orderedInsert, List.Pairwise]
  | cons y ys ih =>
    rcases List.pairwise_cons.mp h with ⟨hy, hys⟩
    by_cases hr : strLtB x y = true
    · simp only [List.orderedInsert, hr, if_true]
      refine List.pairwise_cons.mpr ⟨?_, h⟩
      intro z hz
      rcases List.mem_cons.mp hz with rfl | hz'
      · exact strLtB_asymm x z hr
      · cases hzx : strLtB z x with
        | false => exact hzx
        | true =>
          have := strLtB_trans z x y hzx hr
          rw [hy z hz'] at this
          cases this
    · simp only [List.orderedInsert, hr, if_false]
      refine List.pairwise_cons.mpr ⟨?_, ih hys⟩
      intro z hz
      rcases (List.mem_orderedInsert _).mp hz with rfl | hz'
      · exact Bool.eq_false_iff.mpr hr
      · exact hy z hz'

theorem pairwise_keyLe_insertionSort (l : List Str) :
    (List.insertionSort (fun a b => strLtB a b = true) l).Pairwise keyLe := by
  induction l with
  | nil => simp [List.insertionSort]
  | cons x xs ih =>
    exact pairwise_keyLe_orderedInsert x _ ih

/-- Sorting is a function of the key multiset: permuted key lists sort to the
same list. -/
theorem insertionSort_keys_perm_eq (l1 l2 : List Str) (h : l1.Perm l2) :
    List.insertionSort (fun a b => strLtB a b = true) l1 =
      List.insertionSort (fun a b => strLtB a b = true) l2 :=
  List.eq_of_perm_of_sorted
    ((List.perm_insertionSort _ l1).trans
      (h.trans (List.perm_insertionSort _ l2).symm))
    (pairwise_keyLe_insertionSort l1) (pairwise_keyLe_insertionSort l2)

theorem sortedKeys_perm {α : Type} (l1 l2 : List (Str × α))
    (h : (l1.map Prod.fst).Perm (l2.map Prod.fst)) :
    sortedKeys l1 = sortedKeys l2 :=
  insertionSort_keys_perm_eq _ _ h

/-- Pointwise relation on optional values. -/
def optRelP {α : Type} (R : α → α → Prop) : Option α → Option α → Prop
  | none, none => True
  | some a, some b => R a b
  | _, _ => False

/-- Extensional equivalence of host entries: same location key multiset, same
location bindings, same default-location flag. -/
def hostEqv (h1 h2 : HostT) : Prop :=
  (h1.locations.map Prod.fst).Perm (h2.locations.map Prod.fst) ∧
  (∀ k, lookupA h1.locations k = lookupA h2.locations k) ∧
  h1.needsDefaultLocation = h2.needsDefaultLocation

/-- Extensional equivalence of template data: equal scalar fields, host maps
with permuted key lists and `hostEqv`-related bindings, upstream maps with
permuted key lists and equal bindings. -/
def tdEqv (t1 t2 : TemplateDataT) : Prop :=
  t1.apiKeyHeader = t2.apiKeyHeader ∧ t1.port = t2.port ∧
  (t1.hosts.map Prod.fst).Perm (t2.hosts.map Prod.fst) ∧
  (∀ k, optRelP hostEqv (lookupA t1.hosts k) (lookupA t2.hosts k)) ∧
  (t1.upstreams.map Prod.fst).Perm (t2.upstreams.map Prod.fst) ∧
  (∀ k, lookupA t1.upstreams k = lookupA t2.upstreams k)

theorem hostEqv_refl (h : HostT) : hostEqv h h :=
  ⟨List.Perm.refl _, fun _ => rfl, rfl⟩

theorem hostEqv_symm {h1 h2 : HostT} (h : hostEqv h1 h2) : hostEqv h2 h1 :=
  ⟨h.1.symm, fun k => (h.2.1 k).symm, h.2.2.symm⟩

theorem hostEqv_trans {h1 h2 h3 : HostT} (a : hostEqv h1 h2)
    (b : hostEqv h2 h3) : hostEqv h1 h3 :=
  ⟨a.1.trans b.1, fun k => (a.2.1 k).trans (b.2.1 k), a.2.2.trans b.2.2⟩

theorem optRelP_refl {α : Type} {R : α → α → Prop}
    (hR : ∀ a, R a a) : ∀ o, optRelP R o o
  | none => trivial
  | some a => hR a

theorem optRelP_symm {α : Type} {R : α → α → Prop}
    (hR : ∀ a b, R a b → R b a) :
    ∀ o1 o2, optRelP R o1 o2 → optRelP R o2 o1
  | none, none, _ => trivial
  | some a, some b, h => hR a b h

theorem optRelP_trans {α : Type} {R : α → α → Prop}
    (hR : ∀ a b c, R a b → R b c → R a c) :
    ∀ o1 o2 o3, optRelP R o1 o2 → optRelP R o2 o3 → optRelP R o1 o3
  | none, none, none, _, _ => trivial
  | some a, some b, some c, h1, h2 => hR a b c h1 h2

theorem tdEqv_refl (t : TemplateDataT) : tdEqv t t :=
  ⟨rfl, rfl, List.Perm.refl _, fun _ => optRelP_refl hostEqv_refl _,
    List.Perm.refl _, fun _ => rfl⟩

theorem tdEqv_symm {t1 t2 : TemplateDataT} (h : tdEqv t1 t2) : tdEqv t2 t1 :=
  ⟨h.1.symm, h.2.1.symm, h.2.2.1.symm,
    fun k => @optRelP_symm _ hostEqv (fun _ _ hab => hostEqv_symm hab) _ _ (h.2.2.2.1 k),
    h.2.2.2.2.1.symm, fun k => (h.2.2.2.2.2 k).symm⟩

theorem tdEqv_trans {t1 t2 t3 : TemplateDataT} (a : tdEqv t1 t2)
    (b : tdEqv t2 t3) : tdEqv t1 t3 :=
  ⟨a.1.trans b.1, a.2.1.trans b.2.1, a.2.2.1.trans b.2.2.1,
    fun k => @optRelP_trans _ hostEqv (fun _ _ _ h1 h2 => hostEqv_trans h1 h2) _ _ _
      (a.2.2.2.1 k) (b.2.2.2.1 k),
    a.2.2.2.2.1.trans b.2.2.2.2.1,
    fun k => (a.2.2.2.2.2 k).trans (b.2.2.2.2.2 k)⟩

/-- `renderHost` respects `hostEqv`. -/
theorem renderHost_eqv (hdr : Str) (port : Nat) (hostname : Str)
    {h1 h2 : HostT} (h : hostEqv h1 h2) :
    renderHost hdr port hostname h1 = renderHost hdr port hostname h2 := by
  obtain ⟨hperm, hlook, hflag⟩ := h
  unfold renderHost
  have hfn : (fun p => match lookupA h1.locations p with
      | some loc => renderLocation hdr p loc
      | none => ([] : Str)) =
      (fun p => match lookupA h2.locations p with
      | some loc => renderLocation hdr p loc
      | none => ([] : Str)) := by
    funext p
    rw [hlook p]
  rw [hflag, sortedKeys_perm h1.locations h2.locations hperm, hfn]

/-- `renderNginxConf` respects `tdEqv`: the render only consumes the sorted
key lists and the per-key bindings. -/
theorem renderNginxConf_eqv {t1 t2 : TemplateDataT} (h : tdEqv t1 t2) :
    renderNginxConf t1 = renderNginxConf t2 := by
  obtain ⟨hhdr, hport, hperm, hlook, huperm, hulook⟩ := h
  unfold renderNginxConf
  have hufn : (fun k => match lookupA t1.upstreams k with
      | some up => renderUpstream up
      | none => ([] : Str)) =
      (fun k => match lookupA t2.upstreams k with
      | some up => renderUpstream up
      | none => ([] : Str)) := by
    funext k
    rw [hulook k]
  have hhfn : (fun hk => match lookupA t1.hosts hk with
      | some hv => renderHost t1.apiKeyHeader t1.port hk hv
      | none => ([] : Str)) =
      (fun hk => match lookupA t2.hosts hk with
      | some hv => renderHost t2.apiKeyHeader t2.port hk hv
      | none => ([] : Str)) := by
    funext hk
    have hrel := hlook hk
    cases e1 : lookupA t1.hosts hk with
    | none =>
      rw [e1] at hrel
      cases e2 : lookupA t2.hosts hk with
      | none => rfl
      | some b => rw [e2] at hrel; cases hrel
    | some a =>
      rw [e1] at hrel
      cases e2 : lookupA t2.hosts hk with
      | none => rw [e2] at hrel; cases hrel
      | some b =>
        rw [e2] at hrel
        simp only [hhdr, hport]
        exact renderHost_eqv t2.apiKeyHeader t2.port hk hrel
  rw [hufn, hhfn, hport, sortedKeys_perm t1.upstreams t2.upstreams huperm,
    sortedKeys_perm t1.hosts t2.hosts hperm]

/-- The location secret computed for a cache entry's namespace. -/
def secretOf (dataField : Str) (secrets : SecretCache) (e : RPodWithRoutes) : Str :=
  match lookupA secrets e.nspace with
  | some sec => base64Encode ((lookupA sec.data dataField).getD [])
  | none => []

/-- A freshly created host entry. -/
def emptyHostT : HostT := { locations := [], needsDefaultLocation := true }

/-- The per-route update of a location binding: create it on first sight,
re-point it at the upstream name when a different target arrives, leave it
alone otherwise. -/
def locUpd (e : RPodWithRoutes) (r : Route) (locationSecret : Str) :
    Option LocationT → LocationT
  | none =>
    { nspace := e.nspace, path := r.incoming.path, secret := locationSecret,
      server := ⟨false, some e, routeTarget r⟩ }
  | some loc =>
    if loc.server.target ≠ routeTarget r then
      { loc with server := ⟨true, none, upstreamNameOf (upstreamKeyOf r)⟩ }
    else loc

/-- The per-route update of a host entry. -/
def hostUpd (e : RPodWithRoutes) (r : Route) (locationSecret : Str)
    (o : Option HostT) : HostT :=
  let h0 := o.getD emptyHostT
  { locations := insertA h0.locations r.incoming.path
      (locUpd e r locationSecret (lookupA h0.locations r.incoming.path)),
    needsDefaultLocation := h0.needsDefaultLocation &&
      !(decide (r.incoming.path = str "/")) }

/-- The per-route update of the upstream binding at the route's key, as a
function of the pre-existing location and upstream (`none` = no change). -/
def upsUpd (e : RPodWithRoutes) (r : Route) :
    Option LocationT → Option UpstreamT → Option UpstreamT
  | none, _ => none
  | some loc, oldUps =>
    if loc.server.target ≠ routeTarget r then
      some (match oldUps with
        | some up =>
          if up.servers.any (fun sv => sv.target == routeTarget r) then up
          else
            { up with
                servers := sortServers
                  (up.servers ++ [⟨false, some e, routeTarget r⟩]) }
        | none =>
          { host := r.incoming.host, name := upstreamNameOf (upstreamKeyOf r),
            path := r.incoming.path,
            servers := [loc.server, ⟨false, some e, routeTarget r⟩] })
    else none

/-- Apply an optional new binding to an association list. -/
def applyOptA {α : Type} (l : List (Str × α)) (k : Str) :
    Option α → List (Str × α)
  | none => l
  | some v => insertA l k v

/-- The pre-existing location of a route's host+path in the template data. -/
def oldLocOf (td : TemplateDataT) (r : Route) : Option LocationT :=
  lookupA ((lookupA td.hosts r.incoming.host).getD emptyHostT).locations
    r.incoming.path

theorem hostFlag_ite (h0 : HostT) (c : Prop) [Decidable c] :
    (if h0.needsDefaultLocation = true ∧ c then
      { h0 with needsDefaultLocation := false } else h0) =
    { h0 with needsDefaultLocation := h0.needsDefaultLocation && !(decide c) } := by
  obtain ⟨locs, fl⟩ := h0
  by_cases h1 : fl = true <;> by_cases h2 : c <;> simp_all

/-- Normal form of the per-route step: the hosts map receives exactly one
`insertA` at the route's host with a value that is a function of the old
binding, and the upstream map receives at most one `insertA` at the route's
key with a value that is a function of the old location and old upstream. -/
theorem routeStep_normal_form (f : Str) (secrets : SecretCache)
    (e : RPodWithRoutes) (td : TemplateDataT) (r : Route) :
    routeStep f secrets e td r =
      { apiKeyHeader := td.apiKeyHeader, port := td.port,
        hosts := insertA td.hosts r.incoming.host
          (hostUpd e r (secretOf f secrets e) (lookupA td.hosts r.incoming.host)),
        upstreams := applyOptA td.upstreams (upstreamKeyOf r)
          (upsUpd e r (oldLocOf td r)
            (lookupA td.upstreams (upstreamKeyOf r))) } := by
  have hIns : ∀ (x : HostT), lookupA (insertA td.hosts r.incoming.host x)
      r.incoming.host = some x := fun x => by rw [lookupA_insertA]; simp
  cases hH : lookupA td.hosts r.incoming.host with
  | none =>
    simp only [routeStep, hH, hIns, Option.getD_some, hostFlag_ite]
    by_cases hp : r.incoming.path = str "/" <;>
      simp [hostUpd, locUpd, upsUpd, applyOptA, oldLocOf, secretOf, emptyHostT,
        hH, hp, insertA_insertA, lookupA]
  | some h0 =>
    simp only [routeStep, hH, Option.getD_some, hostFlag_ite]
    cases hL : lookupA h0.locations r.incoming.path with
    | none =>
      simp [hostUpd, locUpd, upsUpd, applyOptA, oldLocOf, secretOf,
        emptyHostT, hH, hL, lookupA]
    | some loc =>
      by_cases hT : loc.server.target = routeTarget r
      · have hSelf := insertA_lookup_self h0.locations r.incoming.path loc hL
        simp [hostUpd, locUpd, upsUpd, applyOptA, oldLocOf, secretOf,
          emptyHostT, hH, hL, hT, hSelf]
      · cases hU : lookupA td.upstreams (upstreamKeyOf r) with
        | none =>
          simp [hostUpd, locUpd, upsUpd, applyOptA, oldLocOf, secretOf,
            emptyHostT, hH, hL, hT, hU]
        | some up =>
          by_cases hM : up.servers.any (fun sv => sv.target == routeTarget r) = true
          · have hSelfU := insertA_lookup_self td.upstreams (upstreamKeyOf r) up hU
            simp [hostUpd, locUpd, upsUpd, applyOptA, oldLocOf, secretOf,
              emptyHostT, hH, hL, hT, hU, hM, hSelfU]
          · simp [hostUpd, locUpd, upsUpd, applyOptA, oldLocOf, secretOf,
              emptyHostT, hH, hL, hT, hU, hM]

theorem keys_insertA_perm {α : Type} {l1 l2 : List (Str × α)} (k : Str)
    (v1 v2 : α) (hperm : (l1.map Prod.fst).Perm (l2.map Prod.fst))
    (hsome : (lookupA l1 k).isSome = (lookupA l2 k).isSome) :
    ((insertA l1 k v1).map Prod.fst).Perm ((insertA l2 k v2).map Prod.fst) := by
  rw [keys_insertA, keys_insertA, ← hsome]
  cases hs : (lookupA l1 k).isSome with
  | false => simp only [if_false, Bool.false_eq_true]; exact hperm.append_right [k]
  | true => simp only [if_true]; exact hperm

theorem hostUpd_eqv (e : RPodWithRoutes) (r : Route) (s : Str)
    {o1 o2 : Option HostT} (h : optRelP hostEqv o1 o2) :
    hostEqv (hostUpd e r s o1) (hostUpd e r s o2) := by
  cases o1 with
  | none =>
    cases o2 with
    | none => exact hostEqv_refl _
    | some b => cases h
  | some a =>
    cases o2 with
    | none => cases h
    | some b =>
      obtain ⟨hperm, hlook, hflag⟩ := h
      refine ⟨?_, ?_, ?_⟩
      · simp only [hostUpd, Option.getD_some]
        rw [hlook r.incoming.path]
        exact keys_insertA_perm _ _ _ hperm (by rw [hlook r.incoming.path])
      · intro k
        simp only [hostUpd, Option.getD_some]
        rw [hlook r.incoming.path, lookupA_insertA, lookupA_insertA]
        by_cases hk : r.incoming.path = k
        · simp [hk]
        · simp [hk, hlook k]
      · simp only [hostUpd, Option.getD_some, hflag]

/-- `routeStep` is a congruence for `tdEqv`. -/
theorem routeStep_congr (f : Str) (secrets : SecretCache) (e : RPodWithRoutes)
    (r : Route) {t1 t2 : TemplateDataT} (h : tdEqv t1 t2) :
    tdEqv (routeStep f secrets e t1 r) (routeStep f secrets e t2 r) := by
  obtain ⟨hhdr, hport, hperm, hlook, huperm, hulook⟩ := h
  rw [routeStep_normal_form, routeStep_normal_form]
  have hrel := hlook r.incoming.host
  have holdLoc : oldLocOf t1 r = oldLocOf t2 r := by
    unfold oldLocOf
    cases e1 : lookupA t1.hosts r.incoming.host with
    | none =>
      cases e2 : lookupA t2.hosts r.incoming.host with
      | none => rfl
      | some b => rw [e1, e2] at hrel; cases hrel
    | some a =>
      cases e2 : lookupA t2.hosts r.incoming.host with
      | none => rw [e1, e2] at hrel; cases hrel
      | some b =>
        rw [e1, e2] at hrel
        simp only [Option.getD_some]
        exact hrel.2.1 r.incoming.path
  have hups := hulook (upstreamKeyOf r)
  refine ⟨hhdr, hport, ?_, ?_, ?_, ?_⟩
  · exact keys_insertA_perm _ _ _ hperm (by
      cases e1 : lookupA t1.hosts r.incoming.host <;>
        cases e2 : lookupA t2.hosts r.incoming.host <;>
          rw [e1, e2] at hrel <;> first | rfl | cases hrel)
  · intro k
    rw [lookupA_insertA, lookupA_insertA]
    by_cases hk : r.incoming.host = k
    · subst hk
      rw [if_pos rfl, if_pos rfl]
      exact hostUpd_eqv e r _ hrel
    · rw [if_neg hk, if_neg hk]
      exact hlook k
  · rw [holdLoc, hups]
    cases upsUpd e r (oldLocOf t2 r) (lookupA t2.upstreams (upstreamKeyOf r)) with
    | none => exact huperm
    | some u => exact keys_insertA_perm _ _ _ huperm (by rw [hups])
  · intro k
    rw [holdLoc, hups]
    cases upsUpd e r (oldLocOf t2 r) (lookupA t2.upstreams (upstreamKeyOf r)) with
    | none => exact hulook k
    | some u =>
      simp only [applyOptA]
      rw [lookupA_insertA, lookupA_insertA]
      by_cases hk : upstreamKeyOf r = k <;> simp [hk, hulook k]

theorem lookupA_applyOptA {α : Type} (l : List (Str × α)) (k : Str)
    (o : Option α) (k' : Str) :
    lookupA (applyOptA l k o) k' =
      if k = k' then
        (match o with | some v => some v | none => lookupA l k')
      else lookupA l k' := by
  cases o with
  | none => simp [applyOptA]
  | some v => simp [applyOptA, lookupA_insertA]

theorem lookupA_applyOptA_ne {α : Type} (l : List (Str × α)) {k k' : Str}
    (o : Option α) (h : k ≠ k') :
    lookupA (applyOptA l k o) k' = lookupA l k' := by
  rw [lookupA_applyOptA, if_neg h]

theorem bool_and_right_comm (a b c : Bool) : ((a && b) && c) = ((a && c) && b) := by
  cases a <;> cases b <;> cases c <;> rfl

theorem keys_insertA_insertA_perm {α : Type} (l : List (Str × α)) (k1 k2 : Str)
    (a1 a2 b1 b2 : α) :
    ((insertA (insertA l k1 a1) k2 a2).map Prod.fst).Perm
      ((insertA (insertA l k2 b2) k1 b1).map Prod.fst) := by
  by_cases hkk : k1 = k2
  · subst hkk
    rw [insertA_insertA, insertA_insertA, keys_insertA, keys_insertA]
  · have hkk' : k2 ≠ k1 := Ne.symm hkk
    rw [keys_insertA, keys_insertA, keys_insertA, keys_insertA,
      lookupA_insertA, lookupA_insertA, if_neg hkk, if_neg hkk']
    cases s1 : (lookupA l k1).isSome with
    | true =>
      cases s2 : (lookupA l k2).isSome with
      | true => simp only [if_true]; exact List.Perm.refl _
      | false =>
        simp only [if_true, Bool.false_eq_true, if_false]
        exact List.Perm.refl _
    | false =>
      cases s2 : (lookupA l k2).isSome with
      | true =>
        simp only [if_true, Bool.false_eq_true, if_false]
        exact List.Perm.refl _
      | false =>
        simp only [Bool.false_eq_true, if_false]
        rw [List.append_assoc, List.append_assoc]
        exact List.Perm.append_left _ (List.Perm.swap k2 k1 [])

/-- Two host updates at different paths commute up to `hostEqv`. -/
theorem hostUpd_comm (e1 e2 : RPodWithRoutes) (r1 r2 : Route) (s1 s2 : Str)
    (o : Option HostT) (hp : r1.incoming.path ≠ r2.incoming.path) :
    hostEqv (hostUpd e2 r2 s2 (some (hostUpd e1 r1 s1 o)))
            (hostUpd e1 r1 s1 (some (hostUpd e2 r2 s2 o))) := by
  have hp' : r2.incoming.path ≠ r1.incoming.path := Ne.symm hp
  refine ⟨?_, ?_, ?_⟩
  · simp only [hostUpd, Option.getD_some, lookupA_insertA, if_neg hp, if_neg hp']
    exact keys_insertA_insertA_perm _ _ _ _ _ _ _
  · intro k
    simp only [hostUpd, Option.getD_some, lookupA_insertA, if_neg hp, if_neg hp']
    by_cases hk2 : r2.incoming.path = k
    · have hk1 : r1.incoming.path ≠ k := fun hc => hp (hc.trans hk2.symm)
      simp only [if_pos hk2, if_neg hk1]
    · by_cases hk1 : r1.incoming.path = k
      · simp only [if_pos hk1, if_neg hk2]
      · simp only [if_neg hk1, if_neg hk2]
  · simp only [hostUpd, Option.getD_some]
    exact bool_and_right_comm _ _ _

/-- A route step at one upstream key leaves the pre-existing location of any
route with a different key unchanged. -/
theorem oldLocOf_routeStep_ne (f : Str) (secrets : SecretCache)
    (e : RPodWithRoutes) (td : TemplateDataT) (r1 r2 : Route)
    (hk : upstreamKeyOf r1 ≠ upstreamKeyOf r2) :
    oldLocOf (routeStep f secrets e td r1) r2 = oldLocOf td r2 := by
  rw [routeStep_normal_form]
  unfold oldLocOf
  dsimp only
  by_cases hh : r1.incoming.host = r2.incoming.host
  · have hp : r1.incoming.path ≠ r2.incoming.path := fun hpe =>
      hk (by unfold upstreamKeyOf; rw [hh, hpe])
    rw [lookupA_insertA, if_pos hh, Option.getD_some]
    unfold hostUpd
    dsimp only
    rw [lookupA_insertA, if_neg hp, hh]
  · rw [lookupA_insertA, if_neg hh]

theorem routeStep_apiKeyHeader (f : Str) (secrets : SecretCache)
    (e : RPodWithRoutes) (td : TemplateDataT) (r : Route) :
    (routeStep f secrets e td r).apiKeyHeader = td.apiKeyHeader := by
  rw [routeStep_normal_form]

theorem routeStep_port (f : Str) (secrets : SecretCache) (e : RPodWithRoutes)
    (td : TemplateDataT) (r : Route) :
    (routeStep f secrets e td r).port = td.port := by
  rw [routeStep_normal_form]

theorem routeStep_hosts (f : Str) (secrets : SecretCache) (e : RPodWithRoutes)
    (td : TemplateDataT) (r : Route) :
    (routeStep f secrets e td r).hosts =
      insertA td.hosts r.incoming.host
        (hostUpd e r (secretOf f secrets e) (lookupA td.hosts r.incoming.host)) := by
  rw [routeStep_normal_form]

theorem routeStep_upstreams (f : Str) (secrets : SecretCache)
    (e : RPodWithRoutes) (td : TemplateDataT) (r : Route) :
    (routeStep f secrets e td r).upstreams =
      applyOptA td.upstreams (upstreamKeyOf r)
        (upsUpd e r (oldLocOf td r) (lookupA td.upstreams (upstreamKeyOf r))) := by
  rw [routeStep_normal_form]

/-- Route steps with different upstream keys commute up to `tdEqv`. -/
theorem routeStep_comm (f : Str) (secrets : SecretCache)
    (e1 e2 : RPodWithRoutes) (r1 r2 : Route) (td : TemplateDataT)
    (hk : upstreamKeyOf r1 ≠ upstreamKeyOf r2) :
    tdEqv (routeStep f secrets e2 (routeStep f secrets e1 td r1) r2)
          (routeStep f secrets e1 (routeStep f secrets e2 td r2) r1) := by
  have hk' : upstreamKeyOf r2 ≠ upstreamKeyOf r1 := Ne.symm hk
  have hOld2 := oldLocOf_routeStep_ne f secrets e1 td r1 r2 hk
  have hOld1 := oldLocOf_routeStep_ne f secrets e2 td r2 r1 hk'
  refine ⟨?_, ?_, ?_, ?_, ?_, ?_⟩
  · rw [routeStep_apiKeyHeader, routeStep_apiKeyHeader,
      routeStep_apiKeyHeader, routeStep_apiKeyHeader]
  · rw [routeStep_port, routeStep_port, routeStep_port, routeStep_port]
  · rw [routeStep_hosts, routeStep_hosts, routeStep_hosts, routeStep_hosts]
    exact keys_insertA_insertA_perm _ _ _ _ _ _ _
  · intro k
    rw [routeStep_hosts, routeStep_hosts, routeStep_hosts, routeStep_hosts]
    by_cases hh : r1.incoming.host = r2.incoming.host
    · have hp : r1.incoming.path ≠ r2.incoming.path := fun hpe =>
        hk (by unfold upstreamKeyOf; rw [hh, hpe])
      rw [← hh, insertA_insertA]
      rw [show lookupA (insertA td.hosts r1.incoming.host
            (hostUpd e1 r1 (secretOf f secrets e1)
              (lookupA td.hosts r1.incoming.host))) r1.incoming.host =
          some (hostUpd e1 r1 (secretOf f secrets e1)
            (lookupA td.hosts r1.incoming.host)) from by
        rw [lookupA_insertA, if_pos rfl]]
      rw [show lookupA (insertA td.hosts r1.incoming.host
            (hostUpd e2 r2 (secretOf f secrets e2)
              (lookupA td.hosts r1.incoming.host))) r1.incoming.host =
          some (hostUpd e2 r2 (secretOf f secrets e2)
            (lookupA td.hosts r1.incoming.host)) from by
        rw [lookupA_insertA, if_pos rfl]]
      rw [insertA_insertA]
      rw [lookupA_insertA, lookupA_insertA]
      by_cases hkk : r1.incoming.host = k
      · rw [if_pos hkk, if_pos hkk]
        exact hostUpd_comm e1 e2 r1 r2 _ _ _ hp
      · rw [if_neg hkk, if_neg hkk]
        exact @optRelP_refl _ hostEqv hostEqv_refl _
    · have hh' : r2.incoming.host ≠ r1.incoming.host := Ne.symm hh
      simp only [lookupA_insertA, if_neg hh, if_neg hh']
      by_cases hk2 : r2.incoming.host = k
      · have hk1 : r1.incoming.host ≠ k := fun hc => hh (hc.trans hk2.symm)
        simp only [if_pos hk2, if_neg hk1]
        exact @optRelP_refl _ hostEqv hostEqv_refl _
      · by_cases hk1 : r1.incoming.host = k
        · simp only [if_pos hk1, if_neg hk2]
          exact @optRelP_refl _ hostEqv hostEqv_refl _
        · simp only [if_neg hk1, if_neg hk2]
          exact @optRelP_refl _ hostEqv hostEqv_refl _
  · simp only [routeStep_upstreams, hOld2, hOld1,
      lookupA_applyOptA_ne _ _ hk, lookupA_applyOptA_ne _ _ hk']
    cases u1 : upsUpd e1 r1 (oldLocOf td r1)
        (lookupA td.upstreams (upstreamKeyOf r1)) with
    | none =>
      cases u2 : upsUpd e2 r2 (oldLocOf td r2)
          (lookupA td.upstreams (upstreamKeyOf r2)) with
      | none => exact List.Perm.refl _
      | some v2 => exact List.Perm.refl _
    | some v1 =>
      cases u2 : upsUpd e2 r2 (oldLocOf td r2)
          (lookupA td.upstreams (upstreamKeyOf r2)) with
      | none => exact List.Perm.refl _
      | some v2 =>
        simp only [applyOptA]
        exact keys_insertA_insertA_perm _ _ _ _ _ _ _
  · intro k
    simp only [routeStep_upstreams, hOld2, hOld1,
      lookupA_applyOptA_ne _ _ hk, lookupA_applyOptA_ne _ _ hk']
    rw [lookupA_applyOptA, lookupA_applyOptA, lookupA_applyOptA,
      lookupA_applyOptA]
    by_cases hk2 : upstreamKeyOf r2 = k
    · have hk1 : upstreamKeyOf r1 ≠ k := fun hc => hk (hc.trans hk2.symm)
      simp only [if_pos hk2, if_neg hk1]
    · by_cases hk1 : upstreamKeyOf r1 = k
      · simp only [if_pos hk1, if_neg hk2]
      · simp only [if_neg hk1, if_neg hk2]

/-- One pod's contribution to the template data: fold its routes. -/
def podStepTD (f : Str) (secrets : SecretCache) (td : TemplateDataT)
    (e : RPodWithRoutes) : TemplateDataT :=
  e.routes.foldl (routeStep f secrets e) td

theorem foldl_routeStep_congr (f : Str) (s : SecretCache) (e : RPodWithRoutes) :
    ∀ (rs : List Route) {td1 td2 : TemplateDataT}, tdEqv td1 td2 →
      tdEqv (rs.foldl (routeStep f s e) td1) (rs.foldl (routeStep f s e) td2) := by
  intro rs
  induction rs with
  | nil => intro td1 td2 h; exact h
  | cons r rest ih =>
    intro td1 td2 h
    exact ih (routeStep_congr f s e r h)

theorem podStepTD_congr (f : Str) (s : SecretCache) (e : RPodWithRoutes)
    {td1 td2 : TemplateDataT} (h : tdEqv td1 td2) :
    tdEqv (podStepTD f s td1 e) (podStepTD f s td2 e) :=
  foldl_routeStep_congr f s e e.routes h

theorem foldl_podStepTD_congr (f : Str) (s : SecretCache) :
    ∀ (pods : List RPodWithRoutes) {td1 td2 : TemplateDataT}, tdEqv td1 td2 →
      tdEqv (pods.foldl (podStepTD f s) td1) (pods.foldl (podStepTD f s) td2) := by
  intro pods
  induction pods with
  | nil => intro td1 td2 h; exact h
  | cons e rest ih =>
    intro td1 td2 h
    exact ih (podStepTD_congr f s e h)

theorem foldl_routeStep_comm (f : Str) (s : SecretCache)
    (e1 e2 : RPodWithRoutes) (r1 : Route) :
    ∀ (rs : List Route), (∀ r2 ∈ rs, upstreamKeyOf r1 ≠ upstreamKeyOf r2) →
      ∀ td, tdEqv (rs.foldl (routeStep f s e2) (routeStep f s e1 td r1))
        (routeStep f s e1 (rs.foldl (routeStep f s e2) td) r1) := by
  intro rs
  induction rs with
  | nil => intro _ td; exact tdEqv_refl _
  | cons r2 rest ih =>
    intro hd td
    have h1 : tdEqv (routeStep f s e2 (routeStep f s e1 td r1) r2)
        (routeStep f s e1 (routeStep f s e2 td r2) r1) :=
      routeStep_comm f s e1 e2 r1 r2 td (hd r2 (List.mem_cons_self _ _))
    have h2 := foldl_routeStep_congr f s e2 rest h1
    refine tdEqv_trans h2 ?_
    exact ih (fun r hr => hd r (List.mem_cons_of_mem _ hr)) (routeStep f s e2 td r2)

/-- Pairwise disjointness of the upstream keys of two cache entries' routes:
the proviso under which their contributions commute. -/
def podsDisjoint (e e' : RPodWithRoutes) : Prop :=
  ∀ r ∈ e.routes, ∀ r' ∈ e'.routes, upstreamKeyOf r ≠ upstreamKeyOf r'

theorem podsDisjoint_symm : Symmetric podsDisjoint := by
  intro e e' h r' hr' r hr
  exact Ne.symm (h r hr r' hr')

theorem podStepTD_comm (f : Str) (s : SecretCache) (e1 e2 : RPodWithRoutes)
    (hd : podsDisjoint e1 e2) (td : TemplateDataT) :
    tdEqv (podStepTD f s (podStepTD f s td e1) e2)
          (podStepTD f s (podStepTD f s td e2) e1) := by
  show tdEqv (podStepTD f s (e1.routes.foldl (routeStep f s e1) td) e2)
    (e1.routes.foldl (routeStep f s e1) (podStepTD f s td e2))
  have main : ∀ (rs1 : List Route),
      (∀ r1 ∈ rs1, ∀ r2 ∈ e2.routes, upstreamKeyOf r1 ≠ upstreamKeyOf r2) →
      ∀ td, tdEqv (podStepTD f s (rs1.foldl (routeStep f s e1) td) e2)
        (rs1.foldl (routeStep f s e1) (podStepTD f s td e2)) := by
    intro rs1
    induction rs1 with
    | nil => intro _ td; exact tdEqv_refl _
    | cons r1 rest ih =>
      intro hd1 td
      have ihx := ih (fun r hr => hd1 r (List.mem_cons_of_mem _ hr))
        (routeStep f s e1 td r1)
      refine tdEqv_trans ihx ?_
      have hcomm := foldl_routeStep_comm f s e1 e2 r1 e2.routes
        (hd1 r1 (List.mem_cons_self _ _)) td
      exact foldl_routeStep_congr f s e1 rest hcomm
  exact main e1.routes hd td

/-- Folding a permuted, pairwise-disjoint pod enumeration from equivalent
states yields equivalent template data. -/
theorem foldl_podStepTD_perm (f : Str) (s : SecretCache) :
    ∀ {l1 l2 : List RPodWithRoutes}, l1.Perm l2 →
      l1.Pairwise podsDisjoint → ∀ {td1 td2 : TemplateDataT}, tdEqv td1 td2 →
      tdEqv (l1.foldl (podStepTD f s) td1) (l2.foldl (podStepTD f s) td2) := by
  intro l1 l2 hperm
  induction hperm with
  | nil => intro _ td1 td2 h; exact h
  | cons x p ih =>
    intro hpw td1 td2 h
    exact ih (List.Pairwise.sublist (List.sublist_cons_self x _) hpw)
      (podStepTD_congr f s x h)
  | swap x y l =>
    intro hpw td1 td2 h
    have hxy : podsDisjoint y x := (List.pairwise_cons.mp hpw).1 x
      (List.mem_cons_self _ _)
    have hcomm := podStepTD_comm f s y x hxy td1
    refine tdEqv_trans (foldl_podStepTD_congr f s l hcomm) ?_
    refine foldl_podStepTD_congr f s l ?_
    exact podStepTD_congr f s y (podStepTD_congr f s x h)
  | trans p1 p2 ih1 ih2 =>
    intro hpw td1 td2 h
    have hpw2 := (p1.pairwise_iff (fun hab => podsDisjoint_symm hab)).mp hpw
    exact tdEqv_trans (ih1 hpw h) (ih2 hpw2 (tdEqv_refl _))

/-- C6 amended: the compiler is deterministic in the cache snapshot and the
enumeration order; two runs that enumerate the pod map in different orders
produce byte-identical text PROVIDED no two distinct pods contribute routes
with the same upstream key (host concatenated with path) — without that
proviso the counterexample above shows the bytes differ (upstream member
order and the location's attributed pod follow encounter order). -/
theorem getConf_order_invariance (cfg : RouterConfig) (st : NginxState)
    (secrets : SecretCache) (pods1 pods2 : List RPodWithRoutes)
    (hperm : pods1.Perm pods2)
    (hdisj : pods1.Pairwise podsDisjoint) :
    (GetConf cfg st pods1 secrets).fst = (GetConf cfg st pods2 secrets).fst := by
  by_cases h0 : pods1.length = 0
  · have h02 : pods2.length = 0 := by rw [← hperm.length_eq]; exact h0
    unfold GetConf
    rw [if_pos h0, if_pos h02]
  · have h02 : ¬pods2.length = 0 := by rw [← hperm.length_eq]; exact h0
    unfold GetConf
    rw [if_neg h0, if_neg h02]
    exact renderNginxConf_eqv
      (foldl_podStepTD_perm cfg.apiKeySecretDataField secrets hperm hdisj
        (tdEqv_refl _))

/-- Pods on different hosts for the C6 invariance witness. -/
def c6podC : RPodWithRoutes :=
  { name := str "c-pod", nspace := str "nsc", status := str "Running",
    annotationHash := 0,
    routes := [{ incoming := { host := str "one.github.com", path := str "/" },
                 outgoing := { ip := str "10.0.0.3", port := str "80" } }] }

def c6podD : RPodWithRoutes :=
  { name := str "d-pod", nspace := str "nsd", status := str "Running",
    annotationHash := 0,
    routes := [{ incoming := { host := str "two.github.com", path := str "/" },
                 outgoing := { ip := str "10.0.0.4", port := str "80" } }] }

theorem getConf_order_invariance_witness :
    (GetConf c6cfg initialNginxState [c6podC, c6podD] []).fst =
      (GetConf c6cfg initialNginxState [c6podD, c6podC] []).fst :=
  getConf_order_invariance c6cfg initialNginxState [] [c6podC, c6podD]
    [c6podD, c6podC] (List.Perm.swap _ _ _)
    (by
      refine List.Pairwise.cons ?_ (List.pairwise_singleton _ _)
      intro e he
      rw [List.mem_singleton.mp he]
      intro r hr r' hr'
      rw [List.mem_singleton.mp hr, List.mem_singleton.mp hr']
      decide)
